import Mathlib

/-!
Shallow embedding of the Prestige anonymous-voting core (TypeScript sources
under `src/prestige/`), together with proofs settling the frozen claims about
its specification.

Conventions of the embedding:
* JS strings are Lean `String`; character codes (`charCodeAt`) are the Unicode
  code points of the characters (`Char.toNat`), which agree with UTF-16 code
  units on the ASCII inputs handled here.
* JS numbers holding timestamps and scores are `Int` (all uses in the source
  are integral); counts are `Nat`.
* SHA-256 is modelled as an ideal (injective) hash: the code observes hashes
  only through equality, and the model preserves exactly the equalities of the
  hashed byte strings.  Concatenation of the hash inputs, which the real code
  performs before hashing, is modelled faithfully.
* Async store operations become explicit state passing; fallible operations
  return `Except ErrorCode`.
* External collaborators (Freebird issuer verification, Witness attestation)
  are parameters of the operations that call them.
-/

namespace Prestige

/-! ### String code utilities -/

/-- The sequence of character codes of a string (JS `charCodeAt` view;
identical to UTF-16 code units for the ASCII data handled by the core). -/
def charCodes (s : String) : List Nat :=
  s.data.map Char.toNat

/-- ASCII (code-point) lexicographic order on strings, the order of the JS
default `Array.prototype.sort` comparator on strings. -/
def asciiLe (a b : String) : Prop :=
  charCodes a ≤ charCodes b

instance : DecidableRel asciiLe := fun a b =>
  inferInstanceAs (Decidable (charCodes a ≤ charCodes b))

/-- Strict ASCII (code-point) order on strings. -/
def asciiLt (a b : String) : Prop :=
  charCodes a < charCodes b

instance : DecidableRel asciiLt := fun a b =>
  inferInstanceAs (Decidable (charCodes a < charCodes b))

/-- ASCII lower-casing of a character code (JS `toLowerCase` restricted to
ASCII letters). -/
def lowerCode (n : Nat) : Nat :=
  if 65 ≤ n ∧ n ≤ 90 then n + 32 else n

/-- Lower-cased code sequence of a string. -/
def lowerCodes (s : String) : List Nat :=
  (charCodes s).map lowerCode

/-- Modelled from the behaviour of `String.prototype.localeCompare` under the
default (root) collation, restricted to ASCII strings: the primary comparison
is case-insensitive on the code sequence, and on a primary tie the lowercase
form orders first (so `"a"` sorts before `"B"`, unlike ASCII byte order).
This is the comparator the source uses to sort score keys. -/
def localeLe (a b : String) : Prop :=
  lowerCodes a < lowerCodes b ∨ (lowerCodes a = lowerCodes b ∧ charCodes b ≤ charCodes a)

instance : DecidableRel localeLe := fun a b =>
  inferInstanceAs (Decidable (lowerCodes a < lowerCodes b ∨
    (lowerCodes a = lowerCodes b ∧ charCodes b ≤ charCodes a)))

/-- The comparator `localeLe` lifted to key-value pairs, comparing keys only (the source
sorts `Object.entries` by `([a], [b]) => a.localeCompare(b)`). -/
def localeLeKey (p q : String × Int) : Prop :=
  localeLe p.1 q.1

instance : DecidableRel localeLeKey := fun p q =>
  inferInstanceAs (Decidable (localeLe p.1 q.1))

/-! ### Crypto (`crypto.ts`) -/

/-- SHA-256 modelled as an ideal hash: an injective function of the input
byte string.  The core compares hashes only for equality, and under the
standard collision-resistance idealisation two hashes are equal exactly when
the hashed strings are, which is what this model provides. -/
def sha256Ideal (s : String) : String := s

/-- Embeds `Crypto.hash(...inputs)`: SHA-256 over the concatenation of the inputs
(strings are UTF-8; concatenation happens before hashing, faithfully kept). -/
def cryptoHash (inputs : List String) : String :=
  sha256Ideal (String.join inputs)

/-- Structured vote payloads (`VoteData` in `types.ts`): a tagged variant
mirroring `single` / `approval` / `ranked` / `score`.  A `score` record is the
entry list of the JS object in insertion order. -/
inductive VoteData where
  | single (choice : String)
  | approval (choices : List String)
  | ranked (rankings : List String)
  | score (scores : List (String × Int))
  deriving DecidableEq, Repr

/-- JS `[...choices].sort()`: default string sort in code-unit order. -/
def sortAscii (l : List String) : List String :=
  l.insertionSort asciiLe

/-- JS `Object.entries(scores).sort(([a], [b]) => a.localeCompare(b))`. -/
def sortScoreEntries (l : List (String × Int)) : List (String × Int) :=
  l.insertionSort localeLeKey

/-- Embeds `Crypto.serializeVoteData` (`crypto.ts` lines 118–143): canonical
serialization of a vote payload for commitment generation. -/
def serializeVoteData (vd : VoteData) : String :=
  match vd with
  | .single choice => choice
  | .approval choices => "approval:" ++ ",".intercalate (sortAscii choices)
  | .ranked rankings => "ranked:" ++ ",".intercalate rankings
  | .score scores =>
      "score:" ++ ",".intercalate
        ((sortScoreEntries scores).map (fun kv => kv.1 ++ ":" ++ toString kv.2))

/-- The comparator `asciiLe` lifted to key-value pairs, comparing keys only. -/
def asciiLeKey (p q : String × Int) : Prop :=
  asciiLe p.1 q.1

instance : DecidableRel asciiLeKey := fun p q =>
  inferInstanceAs (Decidable (asciiLe p.1 q.1))

/-- Modelled from the spec's words for comparison with the source: the Score
serialization with keys sorted in ascending ASCII (byte) order
(`sort_by_key_ascii`), as §4.2 of the spec prescribes. -/
def serializeScoreSpecAscii (scores : List (String × Int)) : String :=
  "score:" ++ ",".intercalate
    ((scores.insertionSort asciiLeKey).map (fun kv => kv.1 ++ ":" ++ toString kv.2))

/-- Embeds `Crypto.generateCommitment`: `H(choice ‖ salt)`. -/
def generateCommitment (choice salt : String) : String :=
  cryptoHash [choice, salt]

/-- Embeds `Crypto.generateVoteCommitment`: `H(serialize(voteData) ‖ salt)`. -/
def generateVoteCommitment (vd : VoteData) (salt : String) : String :=
  cryptoHash [serializeVoteData vd, salt]

/-- Embeds `Crypto.constantTimeEqual`: length check, then OR-accumulated XOR of the
character codes, compared to zero. -/
def constantTimeEqual (a b : String) : Bool :=
  if a.length ≠ b.length then false
  else
    (((charCodes a).zip (charCodes b)).foldl (fun r p => r ||| (p.1 ^^^ p.2)) 0) == 0

/-- Embeds `Crypto.verifyVoteCommitment`: recompute and compare in constant time. -/
def verifyVoteCommitment (commitment : String) (vd : VoteData) (salt : String) : Bool :=
  constantTimeEqual commitment (generateVoteCommitment vd salt)

/-- Embeds `Crypto.verifyCommitment` (single-choice variant). -/
def verifyCommitment (commitment choice salt : String) : Bool :=
  constantTimeEqual commitment (generateCommitment choice salt)

/-- Hex-digit test on a character code (regex `/^[0-9a-f]+$/i`). -/
def isHexCode (n : Nat) : Bool :=
  (48 ≤ n && n ≤ 57) || (97 ≤ n && n ≤ 102) || (65 ≤ n && n ≤ 70)

/-- Embeds `Crypto.isValidHash`: exactly 64 hex characters. -/
def isValidHash (s : String) : Bool :=
  s.length == 64 && (charCodes s).all isHexCode

/-! ### Ballot lifecycle (`ballot.ts`, `types.ts`) -/

/-- Ballot lifecycle states. -/
inductive BallotStatus where
  | petition
  | voting
  | revealing
  | finalized
  deriving DecidableEq, Repr

/-- The tag of a vote-type configuration. -/
inductive VoteType where
  | single
  | approval
  | ranked
  | score
  deriving DecidableEq, Repr

/-- Embeds `VoteTypeConfig`: the tag plus its optional bounds. -/
structure VoteTypeConfig where
  type : VoteType
  minRankings : Option Nat := none
  maxRankings : Option Nat := none
  minScore : Option Int := none
  maxScore : Option Int := none
  deriving DecidableEq, Repr

/-- A ballot record, restricted to the fields the verified operations read
or write (`eligibility`, `creatorPublicKey` and the creation attestation are
carried opaquely by the source and omitted). -/
structure Ballot where
  id : String
  question : String
  choices : List String
  created : Int
  deadline : Int
  revealDeadline : Int
  status : BallotStatus
  voteType : Option VoteTypeConfig
  deriving DecidableEq, Repr

/-- Embeds `BallotManager.computeStatus`: clock-derived status.  Petition and
finalized are sticky; otherwise the deadlines decide. -/
def computeStatus (b : Ballot) (now : Int) : BallotStatus :=
  if b.status = .petition then .petition
  else if b.status = .finalized then .finalized
  else if now < b.deadline then .voting
  else if now < b.revealDeadline then .revealing
  else .finalized

/-- Embeds `BallotManager.isAcceptingVotes`. -/
def isAcceptingVotes (b : Ballot) (now : Int) : Bool :=
  if b.status = .petition then false else decide (now < b.deadline)

/-- Embeds `BallotManager.isPetition`. -/
def isPetition (b : Ballot) : Bool :=
  b.status == .petition

/-- Embeds `BallotManager.isAcceptingReveals`. -/
def isAcceptingReveals (b : Ballot) (now : Int) : Bool :=
  decide (b.deadline ≤ now) && decide (now < b.revealDeadline)

/-- Embeds `BallotManager.isFinalized`. -/
def isFinalized (b : Ballot) (now : Int) : Bool :=
  decide (b.revealDeadline ≤ now) || (b.status == .finalized)

/-! ### Store contract (`storage.ts`), modelled as in-memory lists -/

/-- A stored vote.  The eligibility proof is carried opaquely as a string;
its verification is delegated to the Freebird collaborator.  The witness
attestation is consumed only through its `timestamp` (Unix seconds). -/
structure WitnessAttestation where
  timestamp : Int
  deriving DecidableEq, Repr

structure Vote where
  ballotId : String
  nullifier : String
  commitment : String
  proof : String
  attestation : WitnessAttestation
  deriving DecidableEq, Repr

structure Reveal where
  ballotId : String
  nullifier : String
  choice : String
  salt : String
  voteData : Option VoteData
  deriving DecidableEq, Repr

/-- Embeds `getBallot` on the store: lookup by primary key `id`. -/
def storeGetBallot (ballots : List Ballot) (id : String) : Option Ballot :=
  ballots.find? (fun b => b.id == id)

/-- Embeds `updateBallotStatus` on the store: `UPDATE ballots SET status = ? WHERE id = ?`. -/
def storeUpdateBallotStatus (ballots : List Ballot) (id : String) (status : BallotStatus) :
    List Ballot :=
  ballots.map (fun b => if b.id == id then { b with status := status } else b)

/-- Embeds `saveVote` on the store: `INSERT OR IGNORE` under the
`(ballot_id, nullifier)` unique key. -/
def storeSaveVote (votes : List Vote) (v : Vote) : List Vote :=
  if votes.any (fun w => w.ballotId == v.ballotId && w.nullifier == v.nullifier) then votes
  else votes ++ [v]

/-- Embeds `hasNullifier` on the store. -/
def storeHasNullifier (votes : List Vote) (ballotId nullifier : String) : Bool :=
  votes.any (fun w => w.ballotId == ballotId && w.nullifier == nullifier)

/-- Embeds `getVotesByBallot` on the store. -/
def storeGetVotesByBallot (votes : List Vote) (ballotId : String) : List Vote :=
  votes.filter (fun w => w.ballotId == ballotId)

/-- Embeds `getRevealByNullifier` on the store. -/
def storeGetRevealByNullifier (reveals : List Reveal) (ballotId nullifier : String) :
    Option Reveal :=
  reveals.find? (fun r => r.ballotId == ballotId && r.nullifier == nullifier)

/-- Embeds `saveReveal` on the store: `INSERT OR IGNORE` under `(ballot_id, nullifier)`. -/
def storeSaveReveal (reveals : List Reveal) (r : Reveal) : List Reveal :=
  if reveals.any (fun s => s.ballotId == r.ballotId && s.nullifier == r.nullifier) then reveals
  else reveals ++ [r]

/-- The persistent state shared by the admission operations. -/
structure Store where
  ballots : List Ballot
  votes : List Vote
  reveals : List Reveal
  deriving DecidableEq, Repr

/-- Embeds `BallotManager.getBallot` (`ballot.ts` lines 121–132): loads the ballot
and, when the clock-derived status differs from the stored one, writes the
new status back before returning the ballot with that status. -/
def managerGetBallot (ballots : List Ballot) (id : String) (now : Int) :
    Option Ballot × List Ballot :=
  match storeGetBallot ballots id with
  | none => (none, ballots)
  | some b =>
      let updatedStatus := computeStatus b now
      if updatedStatus ≠ b.status then
        (some { b with status := updatedStatus },
         storeUpdateBallotStatus ballots id updatedStatus)
      else
        (some b, ballots)

/-- The typed error taxonomy (subset used by the verified operations). -/
inductive ErrorCode where
  | ballotNotFound
  | ballotInPetition
  | ballotClosed
  | ballotNotRevealing
  | invalidCommitment
  | doubleVote
  | invalidProof
  | tooLate
  | invalidReveal
  | notEligible
  | invalidSignature
  deriving DecidableEq, Repr

/-! ### Vote admission (`castVote`, vote-casting module) -/

structure CastVoteRequest where
  ballotId : String
  nullifier : String
  commitment : String
  proof : String
  deriving DecidableEq, Repr

/-- Embeds `VoteManager.castVote`.  `freebirdVerify` is the external issuer
verifier; `witnessAttest` is the external witness, mapping the submitted
hash to a signed attestation.  Returns the result together with the store
after the call (the `getBallot` status refresh persists even on failure). -/
def castVote (freebirdVerify : String → Bool)
    (witnessAttest : String → WitnessAttestation)
    (st : Store) (now : Int) (req : CastVoteRequest) :
    Except ErrorCode Vote × Store :=
  match managerGetBallot st.ballots req.ballotId now with
  | (none, ballots₁) => (.error .ballotNotFound, { st with ballots := ballots₁ })
  | (some ballot, ballots₁) =>
      let st₁ : Store := { st with ballots := ballots₁ }
      if isPetition ballot then (.error .ballotInPetition, st₁)
      else if ¬ isAcceptingVotes ballot now then (.error .ballotClosed, st₁)
      else if ¬ isValidHash req.commitment then (.error .invalidCommitment, st₁)
      else if ¬ isValidHash req.nullifier then (.error .invalidCommitment, st₁)
      else if storeHasNullifier st₁.votes req.ballotId req.nullifier then
        (.error .doubleVote, st₁)
      else if ¬ freebirdVerify req.proof then (.error .invalidProof, st₁)
      else
        let voteHash := cryptoHash [req.ballotId, req.nullifier, req.commitment]
        let attestation := witnessAttest voteHash
        if attestation.timestamp * 1000 > ballot.deadline then
          (.error .tooLate, st₁)
        else
          let vote : Vote :=
            { ballotId := req.ballotId, nullifier := req.nullifier,
              commitment := req.commitment, proof := req.proof,
              attestation := attestation }
          (.ok vote, { st₁ with votes := storeSaveVote st₁.votes vote })

/-! ### Reveal admission (`reveal.ts`) -/

structure SubmitRevealRequest where
  ballotId : String
  nullifier : String
  choice : String
  salt : String
  voteData : Option VoteData
  deriving DecidableEq, Repr

/-- The tag of a vote payload. -/
def voteDataType (vd : VoteData) : VoteType :=
  match vd with
  | .single _ => .single
  | .approval _ => .approval
  | .ranked _ => .ranked
  | .score _ => .score

/-- The effective vote type of a ballot: `ballot.voteType?.type ?? 'single'`. -/
def ballotVoteType (b : Ballot) : VoteType :=
  match b.voteType with
  | some cfg => cfg.type
  | none => .single

/-- Embeds `RevealManager.validateVoteData` (`reveal.ts` lines 130–221): tag match
plus per-type bounds, fail-closed. -/
def validateVoteData (vd : VoteData) (b : Ballot) : Except ErrorCode Unit :=
  if voteDataType vd ≠ ballotVoteType b then .error .invalidReveal
  else
    match vd with
    | .single choice =>
        if ¬ b.choices.contains choice then .error .invalidReveal else .ok ()
    | .approval choices =>
        if choices.length = 0 then .error .invalidReveal
        else if choices.any (fun c => ¬ b.choices.contains c) then .error .invalidReveal
        else if (choices.dedup).length ≠ choices.length then .error .invalidReveal
        else .ok ()
    | .ranked rankings =>
        let minRankings := ((b.voteType.bind (·.minRankings)).getD 1)
        let maxRankings := ((b.voteType.bind (·.maxRankings)).getD b.choices.length)
        if rankings.length < minRankings then .error .invalidReveal
        else if rankings.length > maxRankings then .error .invalidReveal
        else if rankings.any (fun c => ¬ b.choices.contains c) then .error .invalidReveal
        else if (rankings.dedup).length ≠ rankings.length then .error .invalidReveal
        else .ok ()
    | .score scores =>
        let minScore := ((b.voteType.bind (·.minScore)).getD 0)
        let maxScore := ((b.voteType.bind (·.maxScore)).getD 10)
        if scores.any (fun kv =>
            ¬ b.choices.contains kv.1 || kv.2 < minScore || kv.2 > maxScore) then
          .error .invalidReveal
        else .ok ()

/-- The reveal record `submitReveal` persists: the request fields, with
`voteData` kept only for non-single payloads (step 9 of `submitReveal`). -/
def revealOfRequest (req : SubmitRevealRequest) : Reveal :=
  let voteData := req.voteData.getD (.single req.choice)
  { ballotId := req.ballotId, nullifier := req.nullifier, choice := req.choice,
    salt := req.salt,
    voteData := if voteDataType voteData ≠ .single then some voteData else none }

/-- Embeds `RevealManager.submitReveal` (`reveal.ts` lines 35–125). -/
def submitReveal (st : Store) (now : Int) (req : SubmitRevealRequest) :
    Except ErrorCode Reveal × Store :=
  match managerGetBallot st.ballots req.ballotId now with
  | (none, ballots₁) => (.error .ballotNotFound, { st with ballots := ballots₁ })
  | (some ballot, ballots₁) =>
      let st₁ : Store := { st with ballots := ballots₁ }
      if ¬ isAcceptingReveals ballot now then
        if isAcceptingVotes ballot now then (.error .ballotClosed, st₁)
        else (.error .ballotNotRevealing, st₁)
      else if ¬ isValidHash req.nullifier then (.error .invalidReveal, st₁)
      else
        match (storeGetVotesByBallot st₁.votes req.ballotId).find?
            (fun v => v.nullifier == req.nullifier) with
        | none => (.error .invalidReveal, st₁)
        | some originalVote =>
            let voteType := ballotVoteType ballot
            let voteData := req.voteData.getD (.single req.choice)
            match validateVoteData voteData ballot with
            | .error e => (.error e, st₁)
            | .ok _ =>
                let computedCommitment :=
                  if voteType = .single ∧ voteDataType voteData = .single then
                    generateCommitment req.choice req.salt
                  else
                    generateVoteCommitment voteData req.salt
                if ¬ constantTimeEqual computedCommitment originalVote.commitment then
                  (.error .invalidReveal, st₁)
                else if (storeGetRevealByNullifier st₁.reveals req.ballotId
                    req.nullifier).isSome then
                  (.error .invalidReveal, st₁)
                else
                  let reveal := revealOfRequest req
                  (.ok reveal, { st₁ with reveals := storeSaveReveal st₁.reveals reveal })

/-! ### Petition ballot gate (`gates/ballot/petition.ts`) -/

structure PetitionSignature where
  ballotId : String
  publicKey : String
  signature : String
  timestamp : Int
  deriving DecidableEq, Repr

/-- Embeds `getPetitionSignatures` on the store: all signatures of one ballot
(the store returns an array, possibly empty, never null). -/
def storeGetPetitionSignatures (sigs : List PetitionSignature) (ballotId : String) :
    List PetitionSignature :=
  sigs.filter (fun s => s.ballotId == ballotId)

/-- Embeds `savePetitionSignature` on the store: unique on `(ballot_id, public_key)`,
duplicates ignored. -/
def storeSavePetitionSignature (sigs : List PetitionSignature) (s : PetitionSignature) :
    List PetitionSignature :=
  if (storeGetPetitionSignatures sigs s.ballotId).any
      (fun t => t.publicKey == s.publicKey) then sigs
  else sigs ++ [s]

/-- Embeds `PetitionStatus`, restricted to the fields the claims consult
(the signature list and `activatedAt` are carried by the source verbatim). -/
structure PetitionStatus where
  ballotId : String
  required : Nat
  current : Nat
  activated : Bool
  deriving DecidableEq, Repr

/-- Embeds `PetitionBallotGate.getPetitionStatus`: activated iff the stored
signature count has reached the threshold. -/
def getPetitionStatus (sigs : List PetitionSignature) (threshold : Nat)
    (ballotId : String) : PetitionStatus :=
  let signatures := storeGetPetitionSignatures sigs ballotId
  { ballotId := ballotId, required := threshold, current := signatures.length,
    activated := decide (signatures.length ≥ threshold) }

/-- Result of `addSignature`: `added`, the top-level `activated` flag the
method returns, and the petition status. -/
structure AddSignatureResult where
  added : Bool
  activated : Bool
  status : PetitionStatus
  deriving DecidableEq, Repr

/-- Embeds `PetitionBallotGate.addSignature` (`petition.ts` lines 109–157).
`canVoteAllowed` is the voter-gate decision for the signer and `sigValid`
the Ed25519 verification of the signature over the ballot id, both delegated
to external collaborators. -/
def addSignature (canVoteAllowed sigValid : Bool) (threshold : Nat)
    (sigs : List PetitionSignature) (ballotId publicKey signature : String)
    (now : Int) :
    Except ErrorCode (AddSignatureResult × List PetitionSignature) :=
  if ¬ canVoteAllowed then .error .notEligible
  else if ¬ sigValid then .error .invalidSignature
  else
    let existing := storeGetPetitionSignatures sigs ballotId
    if existing.any (fun s => s.publicKey == publicKey) then
      let status := getPetitionStatus sigs threshold ballotId
      .ok ({ added := false, activated := status.activated, status := status }, sigs)
    else
      let petitionSignature : PetitionSignature :=
        { ballotId := ballotId, publicKey := publicKey, signature := signature,
          timestamp := now }
      let sigs' := storeSavePetitionSignature sigs petitionSignature
      let status := getPetitionStatus sigs' threshold ballotId
      let wasActivated := decide (existing.length < threshold)
      let nowActivated := status.activated
      let justActivated := wasActivated && nowActivated
      .ok ({ added := true, activated := justActivated, status := status }, sigs')

/-! ### Nullifier gossip (`gossip.ts`) -/

structure NullifierEntry where
  ballotId : String
  nullifier : String
  commitment : String
  timestamp : Int
  peerCount : Nat
  deriving DecidableEq, Repr

structure PeerScore where
  peerId : String
  score : Int
  validMessages : Nat
  invalidProofs : Nat
  duplicates : Nat
  deriving DecidableEq, Repr

/-- JS `Map.get`. -/
def mapGet {α : Type} (m : List (String × α)) (k : String) : Option α :=
  (m.find? (fun p => p.1 == k)).map (fun p => p.2)

/-- JS `Map.set` (upsert). -/
def mapSet {α : Type} (m : List (String × α)) (k : String) (v : α) : List (String × α) :=
  if (m.find? (fun p => p.1 == k)).isSome then
    m.map (fun p => if p.1 == k then (k, v) else p)
  else m ++ [(k, v)]

/-- The local state owned by the gossip component, together with the store
rows it touches and the log of rebroadcast votes (`broadcastVote` calls). -/
structure GossipState where
  nullifiers : List (String × NullifierEntry)
  peerScores : List (String × PeerScore)
  ballots : List Ballot
  votes : List Vote
  broadcasts : List Vote
  deriving DecidableEq, Repr

/-- Embeds `getPeerScore`: existing entry or a fresh one at the initial score 100. -/
def getPeerScore (scores : List (String × PeerScore)) (peerId : String) : PeerScore :=
  (mapGet scores peerId).getD
    { peerId := peerId, score := 100, validMessages := 0, invalidProofs := 0,
      duplicates := 0 }

/-- Embeds `penalizePeer`: subtract `amount` (default 10) and bump the per-reason
counters. -/
def penalizePeer (scores : List (String × PeerScore)) (peerId reason : String)
    (amount : Int) : List (String × PeerScore) :=
  let s := getPeerScore scores peerId
  let s₁ := { s with score := s.score - amount }
  let s₂ := if reason == "invalid_proof" then { s₁ with invalidProofs := s₁.invalidProofs + 1 } else s₁
  let s₃ := if reason == "duplicate" then { s₂ with duplicates := s₂.duplicates + 1 } else s₂
  mapSet scores peerId s₃

/-- Embeds `rewardPeer`: add `amount` (default 1) capped at 100. -/
def rewardPeer (scores : List (String × PeerScore)) (peerId : String)
    (amount : Int) : List (String × PeerScore) :=
  let s := getPeerScore scores peerId
  mapSet scores peerId
    { s with score := min 100 (s.score + amount), validMessages := s.validMessages + 1 }

/-- Embeds `NullifierGossip.onReceiveVote` (`gossip.ts` lines 204–268).
`verifyProof` and `verifyAtt` are the external Freebird and Witness
verifiers.  The `getBallot` status refresh on the shared ballot store is
kept (it persists regardless of the outcome). -/
def onReceiveVote (verifyProof : String → Bool)
    (verifyAtt : WitnessAttestation → Bool)
    (st : GossipState) (now : Int) (vote : Vote) (peerId : String) : GossipState :=
  match managerGetBallot st.ballots vote.ballotId now with
  | (none, ballots₁) =>
      { st with ballots := ballots₁,
                peerScores := penalizePeer st.peerScores peerId "unknown_ballot" 10 }
  | (some ballot, ballots₁) =>
      let st₁ : GossipState := { st with ballots := ballots₁ }
      if ¬ verifyProof vote.proof then
        { st₁ with peerScores := penalizePeer st₁.peerScores peerId "invalid_proof" 10 }
      else if ¬ verifyAtt vote.attestation then
        { st₁ with peerScores := penalizePeer st₁.peerScores peerId "invalid_attestation" 10 }
      else if vote.attestation.timestamp * 1000 > ballot.deadline then
        { st₁ with peerScores := penalizePeer st₁.peerScores peerId "too_late" 10 }
      else
        let key := vote.ballotId ++ ":" ++ vote.nullifier
        match mapGet st₁.nullifiers key with
        | some existing =>
            let nullifiers₁ :=
              mapSet st₁.nullifiers key { existing with peerCount := existing.peerCount + 1 }
            let st₂ : GossipState := { st₁ with nullifiers := nullifiers₁ }
            if existing.commitment ≠ vote.commitment then
              { st₂ with peerScores := penalizePeer st₂.peerScores peerId "double_vote" 10 }
            else
              { st₂ with peerScores := penalizePeer st₂.peerScores peerId "duplicate" 1 }
        | none =>
            let entry : NullifierEntry :=
              { ballotId := vote.ballotId, nullifier := vote.nullifier,
                commitment := vote.commitment,
                timestamp := vote.attestation.timestamp, peerCount := 1 }
            { st₁ with
              nullifiers := mapSet st₁.nullifiers key entry,
              votes := storeSaveVote st₁.votes vote,
              peerScores := rewardPeer st₁.peerScores peerId 1,
              broadcasts := st₁.broadcasts ++ [vote] }

/-! ### Ranked-choice tally (`tally.ts`, `computeRankedChoiceTally`) -/

/-- Decimal digits parse (used for the JS object key order below): `some n`
when the string is a canonical base-10 numeral. -/
def decDigits (cs : List Nat) : Option Nat :=
  cs.foldl (fun acc d =>
    match acc with
    | none => none
    | some n => if 48 ≤ d ∧ d ≤ 57 then some (n * 10 + (d - 48)) else none) (some 0)

/-- A JS object key is an array index when it is the canonical decimal form
of an integer below `2^32 - 1`; such keys are enumerated first, in ascending
numeric order, by `Object.entries`. -/
def jsArrayIndex? (s : String) : Option Nat :=
  match decDigits (charCodes s) with
  | none => none
  | some n =>
      if s.length ≠ 0 ∧ (s.length = 1 ∨ (charCodes s).head? ≠ some 48)
          ∧ n < 4294967295 then some n
      else none

/-- Numeric ascending order on array-index keys. -/
def arrayIndexLe (a b : String) : Prop :=
  (jsArrayIndex? a).getD 0 ≤ (jsArrayIndex? b).getD 0

instance : DecidableRel arrayIndexLe := fun a b =>
  inferInstanceAs (Decidable ((jsArrayIndex? a).getD 0 ≤ (jsArrayIndex? b).getD 0))

/-- The iteration order of a JS object whose keys were inserted in the order
of `l`: array-index keys first in ascending numeric order, then the
remaining keys in insertion order. -/
def jsEntriesOrder (l : List String) : List String :=
  (l.filter (fun s => (jsArrayIndex? s).isSome)).insertionSort arrayIndexLe
    ++ l.filter (fun s => ¬ (jsArrayIndex? s).isSome)

/-- The first choice of one ranked ballot among the remaining choices:
`ballot.find(c => remainingChoices.includes(c))`. -/
def firstRemainingChoice (remaining : List String) (ballot : List String) :
    Option String :=
  ballot.find? (fun c => remaining.contains c)

/-- The per-round vote record: one entry per remaining choice, in the JS
object iteration order, counting the ballots whose first remaining choice it
is (ballots with no remaining choice contribute to no entry). -/
def countRoundVotes (remaining : List String) (ballots : List (List String)) :
    List (String × Nat) :=
  (jsEntriesOrder remaining).map (fun c =>
    (c, ballots.countP (fun b => firstRemainingChoice remaining b == some c)))

/-- Evaluation of `Math.max(...values)` on a list of counts (the loop only evaluates it on
a non-empty record). -/
def natListMax (l : List Nat) : Nat :=
  l.foldl max 0

/-- Evaluation of `Math.min(...values)` on a non-empty list of counts. -/
def natListMin (l : List Nat) : Nat :=
  match l with
  | [] => 0
  | x :: xs => xs.foldl min x

/-- One recorded instant-runoff round: the vote record and the eliminated
choice (`none` in the final, majority round). -/
structure RankedChoiceRound where
  round : Nat
  votes : List (String × Nat)
  eliminated : Option String
  deriving DecidableEq, Repr

/-- The candidate eliminated this round: among the record's entries (in
iteration order), the first whose count equals the minimum
(`Object.entries(votes).filter(count === minVotes)[0]`). -/
def roundEliminated (votes : List (String × Nat)) (minVotes : Nat) : Option String :=
  (votes.find? (fun kv => kv.2 == minVotes)).map (fun kv => kv.1)

/-- Evaluation of `Math.min(...Object.values(votes).filter(v => v >= 0))` of a round. -/
def roundMinVotes (votes : List (String × Nat)) : Nat :=
  natListMin ((votes.map (fun kv => kv.2)).filter (fun v => decide (0 ≤ v)))

/-- The elimination an IRV round performs on `remaining` and `ballots`. -/
def irvElim (remaining : List String) (ballots : List (List String)) :
    Option String :=
  roundEliminated (countRoundVotes remaining ballots)
    (roundMinVotes (countRoundVotes remaining ballots))

/-- The list `remainingChoices` after the round's elimination
(`remainingChoices.filter(c => c !== eliminated)`; when no candidate is
found — impossible in practice — the JS comparison against `undefined`
keeps every entry). -/
def irvNextRemaining (remaining : List String) (ballots : List (List String)) :
    List String :=
  match irvElim remaining ballots with
  | some e => remaining.filter (fun c => c ≠ e)
  | none => remaining

/-- The list `currentBallots` after the round's elimination
(`currentBallots.map(ballot => ballot.filter(c => c !== eliminated))`). -/
def irvNextBallots (remaining : List String) (ballots : List (List String)) :
    List (List String) :=
  ballots.map (fun b =>
    match irvElim remaining ballots with
    | some e => b.filter (fun c => c ≠ e)
    | none => b)

/-- The instant-runoff `while` loop of `computeRankedChoiceTally`
(`tally.ts` lines 217–271).  `capLen` is the original number of choices
(the safety cap breaks after `capLen + 1` rounds); `roundNum` starts at 1.
The eliminated choice is removed from `remaining` and filtered out of every
ballot; the ballots themselves are never removed, so `totalVotes` is the
(constant) number of valid ballots. -/
def irvLoop (capLen : Nat) (remaining : List String)
    (ballots : List (List String)) (roundNum : Nat) : List RankedChoiceRound :=
  if remaining.length ≤ 1 then []
  else
    let votes := countRoundVotes remaining ballots
    let totalVotes := ballots.length
    let majorityNeeded := totalVotes / 2 + 1
    let maxVotes := natListMax (votes.map (fun kv => kv.2))
    if maxVotes ≥ majorityNeeded then
      [{ round := roundNum, votes := votes, eliminated := none }]
    else
      let thisRound : RankedChoiceRound :=
        { round := roundNum, votes := votes,
          eliminated := irvElim remaining ballots }
      if h : roundNum + 1 > capLen + 1 then [thisRound]
      else thisRound :: irvLoop capLen (irvNextRemaining remaining ballots)
        (irvNextBallots remaining ballots) (roundNum + 1)
termination_by capLen + 2 - roundNum
decreasing_by omega

/-- Embeds `computeRankedChoiceTally`: run the IRV loop over the valid ranked
ballots and overlay the last round's counts on a zero tally. -/
def computeRankedChoiceTally (choices : List String)
    (validBallots : List (List String)) :
    List (String × Nat) × List RankedChoiceRound :=
  let rounds := irvLoop choices.length choices (validBallots.map id) 1
  let finalTally := choices.map (fun c =>
    (c, match rounds.getLast? with
        | none => 0
        | some lastRound => ((mapGet lastRound.votes c).getD 0)))
  (finalTally, rounds)

/-! ## Helper lemmas -/

theorem lor_eq_zero_iff (a b : Nat) : a ||| b = 0 ↔ a = 0 ∧ b = 0 := by
  constructor
  · intro h
    refine ⟨Nat.zero_of_testBit_eq_false fun i => ?_,
            Nat.zero_of_testBit_eq_false fun i => ?_⟩ <;>
    · have h2 := congrArg (fun n => Nat.testBit n i) h
      simp only [Nat.testBit_or, Nat.zero_testBit, Bool.or_eq_false_iff] at h2
      tauto
  · rintro ⟨rfl, rfl⟩; rfl

theorem charCodes_injective (a b : String) (h : charCodes a = charCodes b) : a = b := by
  apply String.ext
  have : ∀ (l₁ l₂ : List Char), l₁.map Char.toNat = l₂.map Char.toNat → l₁ = l₂ := by
    intro l₁
    induction l₁ with
    | nil => intro l₂ h2; cases l₂ <;> simp_all
    | cons c cs ih =>
        intro l₂ h2
        cases l₂ with
        | nil => simp_all
        | cons d ds =>
            simp only [List.map_cons, List.cons.injEq] at h2
            have hc : c = d := by
              apply Char.eq_of_val_eq
              apply UInt32.eq_of_val_eq
              exact Fin.eq_of_val_eq h2.1
            exact by rw [hc, ih ds h2.2]
  exact this a.data b.data h

theorem orXorFold_eq_zero (l : List (Nat × Nat)) (acc : Nat) :
    (l.foldl (fun r p => r ||| (p.1 ^^^ p.2)) acc = 0) ↔
      (acc = 0 ∧ ∀ p ∈ l, p.1 = p.2) := by
  induction l generalizing acc with
  | nil => simp
  | cons x xs ih =>
      simp only [List.foldl_cons, ih, lor_eq_zero_iff, Nat.xor_eq_zero, List.mem_cons]
      constructor
      · rintro ⟨⟨h1, h2⟩, h3⟩
        exact ⟨h1, fun p hp => hp.elim (fun he => he ▸ h2) (h3 p)⟩
      · rintro ⟨h1, h2⟩
        exact ⟨⟨h1, h2 x (Or.inl rfl)⟩, fun p hp => h2 p (Or.inr hp)⟩

theorem zip_pointwise_eq (l₁ l₂ : List Nat) (hlen : l₁.length = l₂.length) :
    (∀ p ∈ l₁.zip l₂, p.1 = p.2) ↔ l₁ = l₂ := by
  induction l₁ generalizing l₂ with
  | nil => cases l₂ <;> simp_all
  | cons x xs ih =>
      cases l₂ with
      | nil => simp_all
      | cons y ys =>
          simp only [List.length_cons, Nat.add_right_cancel_iff] at hlen
          simp only [List.zip_cons_cons, List.mem_cons, List.cons.injEq]
          constructor
          · intro h
            exact ⟨h (x, y) (Or.inl rfl), (ih ys hlen).mp fun p hp => h p (Or.inr hp)⟩
          · rintro ⟨rfl, rfl⟩
            intro p hp
            rcases hp with h | h
            · rw [h]
            · exact ((ih xs rfl).mpr rfl) p h

/-- The function `constantTimeEqual` decides string equality (`crypto.ts` lines 178–186):
despite the constant-time accumulation it returns true exactly on equal
strings. -/
theorem constantTimeEqual_eq_true_iff (a b : String) :
    constantTimeEqual a b = true ↔ a = b := by
  unfold constantTimeEqual
  by_cases h : a.length = b.length
  · rw [if_neg (by simp [h])]
    have hcc : (charCodes a).length = (charCodes b).length := by
      simp only [charCodes, List.length_map]
      exact h
    simp only [beq_iff_eq, orXorFold_eq_zero, true_and]
    rw [zip_pointwise_eq _ _ hcc]
    constructor
    · exact fun hc => charCodes_injective a b hc
    · intro he; rw [he]
  · rw [if_pos (by simpa using h)]
    constructor
    · intro hfalse
      exact (Bool.false_ne_true hfalse).elim
    · intro he
      exact absurd (by rw [he]) h

theorem cryptoHash_pair (x y : String) : cryptoHash [x, y] = x ++ y := by
  apply String.ext
  simp [cryptoHash, sha256Ideal, String.join, String.data_append]

theorem string_append_cancel_right (a b c : String) (h : a ++ c = b ++ c) : a = b := by
  apply String.ext
  have := congrArg String.data h
  simp only [String.data_append] at this
  exact List.append_cancel_right this

/-! ## Claim C3 -/

/-- Claim C3 is false as stated: the canonical serialization is not
injective, so the commitment of one vote payload verifies against a
different payload.  Concretely, `Approval ["b","a"]` and `Approval ["a","b"]`
are distinct vote data (distinct lists) with the same sorted serialization,
and `verifyVoteCommitment` accepts the commitment of the first against the
second under the same salt. -/
theorem c3_counterexample :
    VoteData.approval ["b", "a"] ≠ VoteData.approval ["a", "b"] ∧
    verifyVoteCommitment
      (generateVoteCommitment (VoteData.approval ["b", "a"]) "somesalt")
      (VoteData.approval ["a", "b"]) "somesalt" = true := by
  exact ⟨by decide, by decide⟩

/-- Claim C3, amended: for every vote payload and salt, verification of the
commitment against the same payload and salt returns true; verification
against another payload `vd'` (same salt) returns true exactly when `vd'`
has the same canonical serialization as `vd` — in particular it returns
false whenever the serializations differ, but may return true for
`vd' ≠ vd` (for example permuted approval lists). -/
theorem c3_commitment_roundtrip :
    (∀ (vd : VoteData) (salt : String),
      verifyVoteCommitment (generateVoteCommitment vd salt) vd salt = true) ∧
    (∀ (vd vd' : VoteData) (salt : String),
      verifyVoteCommitment (generateVoteCommitment vd salt) vd' salt = true ↔
        serializeVoteData vd' = serializeVoteData vd) := by
  have key : ∀ (vd vd' : VoteData) (salt : String),
      verifyVoteCommitment (generateVoteCommitment vd salt) vd' salt = true ↔
        serializeVoteData vd' = serializeVoteData vd := by
    intro vd vd' salt
    unfold verifyVoteCommitment generateVoteCommitment
    rw [constantTimeEqual_eq_true_iff, cryptoHash_pair, cryptoHash_pair]
    constructor
    · intro h
      exact (string_append_cancel_right _ _ _ h).symm
    · intro h
      rw [h]
  exact ⟨fun vd salt => (key vd vd salt).mpr rfl, key⟩

/-! ## Claim C8 -/

/-- Claim C8: once a ballot's recorded status is `finalized`,
`computeStatus` returns `finalized` for every clock value — the ballot
never returns to voting, revealing, or petition. -/
theorem c8_finalized_sticky (b : Ballot) (now : Int) (h : b.status = .finalized) :
    computeStatus b now = .finalized := by
  simp [computeStatus, h]

/-- Witness for C8 at a concrete finalized ballot and a clock far in its
past. -/
theorem c8_finalized_sticky_witness :
    (Ballot.mk "b1" "q" ["A", "B"] 0 10 20 .finalized none).status = .finalized ∧
    computeStatus (Ballot.mk "b1" "q" ["A", "B"] 0 10 20 .finalized none) (-5) =
      .finalized :=
  ⟨rfl, c8_finalized_sticky _ (-5) rfl⟩

theorem find?_pred_congr {α : Type} (p q : α → Bool) (l : List α)
    (h : ∀ a, p a = q a) : l.find? p = l.find? q := by
  induction l with
  | nil => rfl
  | cons x xs ih =>
      rw [List.find?_cons, List.find?_cons, h x]
      cases q x <;> simp [ih]

theorem updateStatus_id_preserved (id : String) (s : BallotStatus) (bb : Ballot) :
    ((if bb.id == id then { bb with status := s } else bb) : Ballot).id = bb.id := by
  by_cases h : (bb.id == id) = true <;> simp [h]

/-- A status update commutes with lookup: reading any id from the updated
store yields the stored ballot with the status rewritten when its id
matches. -/
theorem storeGetBallot_update (st : List Ballot) (id : String) (s : BallotStatus)
    (id' : String) :
    storeGetBallot (storeUpdateBallotStatus st id s) id' =
      (storeGetBallot st id').map
        (fun b => if b.id == id then { b with status := s } else b) := by
  unfold storeGetBallot storeUpdateBallotStatus
  rw [List.find?_map]
  rw [find?_pred_congr _ (fun b => b.id == id') _ (fun bb => ?_)]
  simp only [Function.comp]
  rw [updateStatus_id_preserved]

/-! ## Claim C10 -/

/-- Claim C10: `getBallot` is not a pure read — whenever the clock-derived
status differs from the stored one it writes the derived status back to the
store and returns the ballot with that status, all other fields unchanged;
lookups of other ballot ids are unaffected. -/
theorem c10_getBallot_refreshes_status (st : List Ballot) (id : String) (now : Int)
    (b : Ballot) (hfind : storeGetBallot st id = some b)
    (hdiff : computeStatus b now ≠ b.status) :
    managerGetBallot st id now =
      (some { b with status := computeStatus b now },
       storeUpdateBallotStatus st id (computeStatus b now)) ∧
    storeGetBallot (storeUpdateBallotStatus st id (computeStatus b now)) id =
      some { b with status := computeStatus b now } ∧
    (∀ id', id' ≠ id →
      storeGetBallot (storeUpdateBallotStatus st id (computeStatus b now)) id' =
        storeGetBallot st id') := by
  have hfind' : List.find? (fun bb : Ballot => bb.id == id) st = some b := hfind
  have hbid : (b.id == id) = true := by
    simpa using List.find?_some hfind'
  refine ⟨?_, ?_, ?_⟩
  · unfold managerGetBallot
    rw [hfind]
    simp [hdiff]
  · rw [storeGetBallot_update]
    rw [hfind]
    have hbeq : b.id = id := by simpa using hbid
    simp [hbeq]
  · intro id' hne
    rw [storeGetBallot_update]
    cases hf : storeGetBallot st id' with
    | none => rfl
    | some el =>
        have hf' : List.find? (fun bb : Ballot => bb.id == id') st = some el := hf
        have helid : el.id = id' := by simpa using List.find?_some hf'
        have hne' : ¬ (el.id == id) = true := by
          simp only [beq_iff_eq, helid]
          exact hne
        simp [Option.map, hne']

/-- Witness for C10: a stored `voting` ballot read after its deadline is
returned as `revealing` and the store row is updated. -/
theorem c10_getBallot_refreshes_status_witness :
    managerGetBallot [Ballot.mk "b1" "q" ["A", "B"] 0 10 20 .voting none] "b1" 15 =
      (some (Ballot.mk "b1" "q" ["A", "B"] 0 10 20 .revealing none),
       [Ballot.mk "b1" "q" ["A", "B"] 0 10 20 .revealing none]) := by
  have h := c10_getBallot_refreshes_status
    [Ballot.mk "b1" "q" ["A", "B"] 0 10 20 .voting none] "b1" 15
    (Ballot.mk "b1" "q" ["A", "B"] 0 10 20 .voting none) (by decide) (by decide)
  exact h.1

/-! ## Claim C5 -/

/-- Claim C5 is false as stated: it asserts that every `addSignature` call
after activation returns `activated = true`, but a subsequent valid
signature from a NEW signer returns `activated = false` (the returned field
reports just-activation), even though the status it carries shows the
petition activated.  With threshold 1: the first signature activates
(`activated = true`); the second, from a fresh key, returns `added = true`
but `activated = false` while `status.activated = true`. -/
theorem c5_counterexample :
    addSignature true true 1 [] "b" "k1" "s1" 0 =
      .ok ({ added := true, activated := true,
             status := { ballotId := "b", required := 1, current := 1,
                         activated := true } },
           [{ ballotId := "b", publicKey := "k1", signature := "s1",
              timestamp := 0 }]) ∧
    addSignature true true 1
        [{ ballotId := "b", publicKey := "k1", signature := "s1", timestamp := 0 }]
        "b" "k2" "s2" 5 =
      .ok ({ added := true, activated := false,
             status := { ballotId := "b", required := 1, current := 2,
                         activated := true } },
           [{ ballotId := "b", publicKey := "k1", signature := "s1",
              timestamp := 0 },
            { ballotId := "b", publicKey := "k2", signature := "s2",
              timestamp := 5 }]) := by
  exact ⟨rfl, rfl⟩

/-- Claim C5, amended: a valid new signature activates exactly when it makes
the stored count reach the threshold (`count = threshold − 1` beforehand);
at `count = threshold − 1` after the call nothing activates.  Subsequent
calls differ by signer: a NEW signer gets `added = true` with
`activated = false` (the field reports just-activation) while
`status.activated = true`; a DUPLICATE signer gets `added = false` with
`activated = true` (the field then reports the stored status). -/
theorem c5_petition_activation (sigs : List PetitionSignature) (threshold : Nat)
    (ballotId pk sig : String) (now : Int) :
    ((storeGetPetitionSignatures sigs ballotId).any
        (fun s => s.publicKey == pk) = false →
      ∃ res sigs',
        addSignature true true threshold sigs ballotId pk sig now = .ok (res, sigs') ∧
        res.added = true ∧
        res.status.activated =
          decide ((storeGetPetitionSignatures sigs ballotId).length + 1 ≥ threshold) ∧
        res.activated =
          (decide ((storeGetPetitionSignatures sigs ballotId).length < threshold) &&
           decide ((storeGetPetitionSignatures sigs ballotId).length + 1 ≥ threshold)) ∧
        ((storeGetPetitionSignatures sigs ballotId).length + 1 = threshold →
          res.activated = true ∧ res.status.activated = true) ∧
        ((storeGetPetitionSignatures sigs ballotId).length + 1 < threshold →
          res.activated = false ∧ res.status.activated = false) ∧
        (threshold ≤ (storeGetPetitionSignatures sigs ballotId).length →
          res.activated = false ∧ res.status.activated = true)) ∧
    ((storeGetPetitionSignatures sigs ballotId).any
        (fun s => s.publicKey == pk) = true →
      ∃ res,
        addSignature true true threshold sigs ballotId pk sig now = .ok (res, sigs) ∧
        res.added = false ∧
        res.activated =
          decide ((storeGetPetitionSignatures sigs ballotId).length ≥ threshold)) := by
  constructor
  · intro hnew
    unfold addSignature
    simp only [Bool.not_true, not_true_eq_false, if_false, ite_false, hnew,
      Bool.false_eq_true, if_neg, decide_True, not_false_eq_true, if_true]
    have hsave : storeSavePetitionSignature sigs
        { ballotId := ballotId, publicKey := pk, signature := sig, timestamp := now } =
        sigs ++ [{ ballotId := ballotId, publicKey := pk, signature := sig,
                   timestamp := now }] := by
      unfold storeSavePetitionSignature
      rw [if_neg]
      simp only [hnew]
      exact Bool.false_ne_true
    rw [hsave]
    have hfilter : storeGetPetitionSignatures
        (sigs ++ [{ ballotId := ballotId, publicKey := pk, signature := sig,
                    timestamp := now }]) ballotId =
        storeGetPetitionSignatures sigs ballotId ++
          [{ ballotId := ballotId, publicKey := pk, signature := sig,
             timestamp := now }] := by
      unfold storeGetPetitionSignatures
      rw [List.filter_append]
      simp
    refine ⟨_, _, rfl, rfl, ?_, ?_, ?_, ?_, ?_⟩
    · simp only [getPetitionStatus, hfilter, List.length_append, List.length_cons,
        List.length_nil]
    · simp only [getPetitionStatus, hfilter, List.length_append, List.length_cons,
        List.length_nil]
    · intro hcross
      constructor
      · simp only [getPetitionStatus, hfilter, List.length_append, List.length_cons,
          List.length_nil, Bool.and_eq_true, decide_eq_true_eq]
        omega
      · simp only [getPetitionStatus, hfilter, List.length_append, List.length_cons,
          List.length_nil, decide_eq_true_eq]
        omega
    · intro hbelow
      constructor
      · simp only [getPetitionStatus, hfilter, List.length_append, List.length_cons,
          List.length_nil, Bool.and_eq_false_iff, decide_eq_false_iff_not]
        omega
      · simp only [getPetitionStatus, hfilter, List.length_append, List.length_cons,
          List.length_nil, decide_eq_false_iff_not]
        omega
    · intro hafter
      constructor
      · simp only [getPetitionStatus, hfilter, List.length_append, List.length_cons,
          List.length_nil, Bool.and_eq_false_iff, decide_eq_false_iff_not]
        omega
      · simp only [getPetitionStatus, hfilter, List.length_append, List.length_cons,
          List.length_nil, decide_eq_true_eq]
        omega
  · intro hdup
    unfold addSignature
    simp only [Bool.not_true, not_true_eq_false, if_false, ite_false, hdup,
      decide_True, not_false_eq_true, if_true]
    exact ⟨_, rfl, rfl, rfl⟩

/-- Witness for C5: threshold 2, one signature already stored; the second
new signature crosses the threshold and activates. -/
theorem c5_petition_activation_witness :
    ∃ res sigs',
      addSignature true true 2
        [{ ballotId := "b", publicKey := "k1", signature := "s1", timestamp := 0 }]
        "b" "k2" "s2" 5 = .ok (res, sigs') ∧
      res.activated = true ∧ res.status.activated = true := by
  have h := (c5_petition_activation
    [{ ballotId := "b", publicKey := "k1", signature := "s1", timestamp := 0 }]
    2 "b" "k2" "s2" 5).1 (by decide)
  obtain ⟨res, sigs', heq, _, _, _, hcross, _, _⟩ := h
  exact ⟨res, sigs', heq, hcross (by decide)⟩

/-! ## Claim C6 -/

theorem computeStatus_eq_petition_iff (b : Ballot) (now : Int) :
    computeStatus b now = .petition ↔ b.status = .petition := by
  unfold computeStatus
  by_cases h1 : b.status = .petition
  · simp [h1]
  · by_cases h2 : b.status = .finalized
    · simp [h1, h2]
    · by_cases h3 : now < b.deadline
      · simp [h1, h2, h3]
      · by_cases h4 : now < b.revealDeadline <;> simp [h1, h2, h3, h4]

theorem managerGetBallot_found (ballots : List Ballot) (id : String) (now : Int)
    (b : Ballot) (hfind : storeGetBallot ballots id = some b) :
    ∃ bl, managerGetBallot ballots id now =
      (some { b with status := computeStatus b now }, bl) := by
  unfold managerGetBallot
  rw [hfind]
  dsimp only
  by_cases h : computeStatus b now ≠ b.status
  · rw [if_pos h]
    exact ⟨_, rfl⟩
  · rw [if_neg h]
    push_neg at h
    refine ⟨ballots, ?_⟩
    rw [h]

theorem storeSaveVote_hasNullifier (votes : List Vote) (v : Vote) :
    storeHasNullifier (storeSaveVote votes v) v.ballotId v.nullifier = true := by
  unfold storeSaveVote storeHasNullifier
  by_cases h : votes.any (fun w => w.ballotId == v.ballotId && w.nullifier == v.nullifier) = true
  · rw [if_pos h]
    exact h
  · rw [if_neg h]
    rw [List.any_append]
    simp

/-- Claim C6: in `castVote`, with every earlier admission check passing, a
vote whose witness attestation timestamp (seconds) times 1000 equals the
ballot's deadline (ms) is accepted and persisted, while any attestation
strictly beyond the deadline is rejected with `TooLate` and no vote is
persisted. -/
theorem c6_attestation_deadline (fv : String → Bool)
    (att : String → WitnessAttestation) (st : Store) (now : Int)
    (req : CastVoteRequest) (b : Ballot)
    (hfind : storeGetBallot st.ballots req.ballotId = some b)
    (hpet : b.status ≠ .petition)
    (hopen : now < b.deadline)
    (hcfmt : isValidHash req.commitment = true)
    (hnfmt : isValidHash req.nullifier = true)
    (hfresh : storeHasNullifier st.votes req.ballotId req.nullifier = false)
    (hproof : fv req.proof = true) :
    ((att (cryptoHash [req.ballotId, req.nullifier, req.commitment])).timestamp * 1000
        ≤ b.deadline →
      (castVote fv att st now req).1 =
        .ok { ballotId := req.ballotId, nullifier := req.nullifier,
              commitment := req.commitment, proof := req.proof,
              attestation :=
                att (cryptoHash [req.ballotId, req.nullifier, req.commitment]) } ∧
      (castVote fv att st now req).2.votes =
        storeSaveVote st.votes
          { ballotId := req.ballotId, nullifier := req.nullifier,
            commitment := req.commitment, proof := req.proof,
            attestation :=
              att (cryptoHash [req.ballotId, req.nullifier, req.commitment]) } ∧
      storeHasNullifier (castVote fv att st now req).2.votes
        req.ballotId req.nullifier = true) ∧
    ((att (cryptoHash [req.ballotId, req.nullifier, req.commitment])).timestamp * 1000
        > b.deadline →
      (castVote fv att st now req).1 = .error .tooLate ∧
      (castVote fv att st now req).2.votes = st.votes) := by
  obtain ⟨bl, hmgb⟩ := managerGetBallot_found st.ballots req.ballotId now b hfind
  have hpet' : isPetition { b with status := computeStatus b now } = false := by
    unfold isPetition
    simp only [beq_eq_false_iff_ne, ne_eq]
    rw [computeStatus_eq_petition_iff]
    exact hpet
  have hacc : isAcceptingVotes { b with status := computeStatus b now } now = true := by
    unfold isAcceptingVotes
    rw [if_neg]
    · simpa using hopen
    · rw [computeStatus_eq_petition_iff]
      exact hpet
  constructor
  · intro hle
    have : castVote fv att st now req =
        (.ok { ballotId := req.ballotId, nullifier := req.nullifier,
               commitment := req.commitment, proof := req.proof,
               attestation :=
                 att (cryptoHash [req.ballotId, req.nullifier, req.commitment]) },
         { ballots := bl, votes := storeSaveVote st.votes
             { ballotId := req.ballotId, nullifier := req.nullifier,
               commitment := req.commitment, proof := req.proof,
               attestation :=
                 att (cryptoHash [req.ballotId, req.nullifier, req.commitment]) },
           reveals := st.reveals }) := by
      unfold castVote
      rw [hmgb]
      simp only [hpet', hacc, hcfmt, hnfmt, hfresh, hproof, Bool.false_eq_true,
        not_false_eq_true, not_true_eq_false, if_false, ite_false, if_true, ite_true,
        Bool.true_eq_false]
      rw [if_neg (by omega)]
    rw [this]
    exact ⟨rfl, rfl, storeSaveVote_hasNullifier _ _⟩
  · intro hgt
    have : castVote fv att st now req =
        (.error .tooLate, { st with ballots := bl }) := by
      unfold castVote
      rw [hmgb]
      simp only [hpet', hacc, hcfmt, hnfmt, hfresh, hproof, Bool.false_eq_true,
        not_false_eq_true, not_true_eq_false, if_false, ite_false, if_true, ite_true,
        Bool.true_eq_false]
      rw [if_pos (by omega)]
    rw [this]
    exact ⟨rfl, rfl⟩

/-- Witness for C6: a concrete open ballot with deadline 1000 ms; an
attestation at second 1 (= 1000 ms) is accepted, one at second 2 (2000 ms)
is rejected with `TooLate`. -/
theorem c6_attestation_deadline_witness :
    (castVote (fun _ => true) (fun _ => { timestamp := 1 })
      { ballots := [{ id := "b1", question := "q", choices := ["A", "B"],
                      created := 0, deadline := 1000, revealDeadline := 2000,
                      status := .voting, voteType := none }],
        votes := [], reveals := [] } 500
      { ballotId := "b1",
        nullifier := "aaaaaaaaaaaaaaaaaaaaaaaaaaaaaaaaaaaaaaaaaaaaaaaaaaaaaaaaaaaaaaaa",
        commitment := "bbbbbbbbbbbbbbbbbbbbbbbbbbbbbbbbbbbbbbbbbbbbbbbbbbbbbbbbbbbbbbbb",
        proof := "p" }).1 =
      .ok { ballotId := "b1",
            nullifier := "aaaaaaaaaaaaaaaaaaaaaaaaaaaaaaaaaaaaaaaaaaaaaaaaaaaaaaaaaaaaaaaa",
            commitment := "bbbbbbbbbbbbbbbbbbbbbbbbbbbbbbbbbbbbbbbbbbbbbbbbbbbbbbbbbbbbbbbb",
            proof := "p", attestation := { timestamp := 1 } } ∧
    (castVote (fun _ => true) (fun _ => { timestamp := 2 })
      { ballots := [{ id := "b1", question := "q", choices := ["A", "B"],
                      created := 0, deadline := 1000, revealDeadline := 2000,
                      status := .voting, voteType := none }],
        votes := [], reveals := [] } 500
      { ballotId := "b1",
        nullifier := "aaaaaaaaaaaaaaaaaaaaaaaaaaaaaaaaaaaaaaaaaaaaaaaaaaaaaaaaaaaaaaaa",
        commitment := "bbbbbbbbbbbbbbbbbbbbbbbbbbbbbbbbbbbbbbbbbbbbbbbbbbbbbbbbbbbbbbbb",
        proof := "p" }).1 = .error .tooLate := by
  constructor
  · exact ((c6_attestation_deadline (fun _ => true) (fun _ => { timestamp := 1 })
      _ 500 _
      { id := "b1", question := "q", choices := ["A", "B"], created := 0,
        deadline := 1000, revealDeadline := 2000, status := .voting,
        voteType := none }
      (by decide) (by decide) (by decide) (by decide) (by decide)
      (by decide) rfl).1 (by decide)).1
  · exact ((c6_attestation_deadline (fun _ => true) (fun _ => { timestamp := 2 })
      _ 500 _
      { id := "b1", question := "q", choices := ["A", "B"], created := 0,
        deadline := 1000, revealDeadline := 2000, status := .voting,
        voteType := none }
      (by decide) (by decide) (by decide) (by decide) (by decide)
      (by decide) rfl).2 (by decide)).1

/-! ## Claim C7 -/

/-- Claim C7: for a non-petition ballot, `submitReveal` at `deadline − 1` is
rejected with `BallotClosed`; at or after `reveal_deadline` it is rejected
with `BallotNotRevealing`; in both cases no reveal is persisted.  At exactly
`deadline` the phase check passes and, with all remaining checks passing,
the reveal is accepted and persisted. -/
theorem c7_reveal_window (st : Store) (req : SubmitRevealRequest) (b : Ballot)
    (hfind : storeGetBallot st.ballots req.ballotId = some b)
    (hpet : b.status ≠ .petition)
    (hwin : b.deadline ≤ b.revealDeadline) :
    ((submitReveal st (b.deadline - 1) req).1 = .error .ballotClosed ∧
     (submitReveal st (b.deadline - 1) req).2.reveals = st.reveals) ∧
    (∀ now, b.revealDeadline ≤ now →
      (submitReveal st now req).1 = .error .ballotNotRevealing ∧
      (submitReveal st now req).2.reveals = st.reveals) ∧
    (b.deadline < b.revealDeadline →
      ∀ v : Vote,
      isValidHash req.nullifier = true →
      (storeGetVotesByBallot st.votes req.ballotId).find?
          (fun w => w.nullifier == req.nullifier) = some v →
      validateVoteData (req.voteData.getD (.single req.choice)) b = .ok () →
      (if ballotVoteType b = .single ∧
            voteDataType (req.voteData.getD (.single req.choice)) = .single then
          generateCommitment req.choice req.salt
        else
          generateVoteCommitment (req.voteData.getD (.single req.choice)) req.salt)
        = v.commitment →
      storeGetRevealByNullifier st.reveals req.ballotId req.nullifier = none →
      ∃ st', submitReveal st b.deadline req = (.ok (revealOfRequest req), st') ∧
        st'.reveals = storeSaveReveal st.reveals (revealOfRequest req)) := by
  have hpet' : ∀ now : Int, ({ b with status := computeStatus b now } : Ballot).status
      ≠ .petition := by
    intro now
    show computeStatus b now ≠ .petition
    simp only [ne_eq, computeStatus_eq_petition_iff]
    exact hpet
  refine ⟨?_, ?_, ?_⟩
  · obtain ⟨bl, hmgb⟩ := managerGetBallot_found st.ballots req.ballotId (b.deadline - 1)
      b hfind
    have hnr : isAcceptingReveals { b with status := computeStatus b (b.deadline - 1) }
        (b.deadline - 1) = false := by
      unfold isAcceptingReveals
      simp only [Bool.and_eq_false_iff, decide_eq_false_iff_not, not_le]
      left
      omega
    have hav : isAcceptingVotes { b with status := computeStatus b (b.deadline - 1) }
        (b.deadline - 1) = true := by
      unfold isAcceptingVotes
      rw [if_neg (hpet' (b.deadline - 1))]
      simp only [decide_eq_true_eq]
      omega
    have : submitReveal st (b.deadline - 1) req =
        (.error .ballotClosed, { st with ballots := bl }) := by
      unfold submitReveal
      rw [hmgb]
      simp [hnr, hav]
    rw [this]
    exact ⟨rfl, rfl⟩
  · intro now hnow
    obtain ⟨bl, hmgb⟩ := managerGetBallot_found st.ballots req.ballotId now b hfind
    have hnr : isAcceptingReveals { b with status := computeStatus b now } now
        = false := by
      unfold isAcceptingReveals
      simp only [Bool.and_eq_false_iff, decide_eq_false_iff_not, not_le, not_lt]
      right
      exact hnow
    have hav : isAcceptingVotes { b with status := computeStatus b now } now
        = false := by
      unfold isAcceptingVotes
      rw [if_neg (hpet' now)]
      simp only [decide_eq_false_iff_not, not_lt]
      omega
    have : submitReveal st now req =
        (.error .ballotNotRevealing, { st with ballots := bl }) := by
      unfold submitReveal
      rw [hmgb]
      simp [hnr, hav]
    rw [this]
    exact ⟨rfl, rfl⟩
  · intro hlt v hnfmt hvote hvd hcommit hdup
    obtain ⟨bl, hmgb⟩ := managerGetBallot_found st.ballots req.ballotId b.deadline
      b hfind
    have har : isAcceptingReveals { b with status := computeStatus b b.deadline }
        b.deadline = true := by
      unfold isAcceptingReveals
      simp only [Bool.and_eq_true, decide_eq_true_eq]
      omega
    have hvd' : validateVoteData (req.voteData.getD (.single req.choice))
        { b with status := computeStatus b b.deadline } = .ok () := hvd
    have hct : constantTimeEqual
        (if ballotVoteType { b with status := computeStatus b b.deadline } = .single ∧
              voteDataType (req.voteData.getD (.single req.choice)) = .single then
            generateCommitment req.choice req.salt
          else
            generateVoteCommitment (req.voteData.getD (.single req.choice)) req.salt)
        v.commitment = true := by
      rw [(constantTimeEqual_eq_true_iff _ _)]
      exact hcommit
    refine ⟨{ ballots := bl, votes := st.votes,
              reveals := storeSaveReveal st.reveals (revealOfRequest req) },
            ?_, rfl⟩
    unfold submitReveal
    rw [hmgb]
    simp only [har, Bool.true_eq_false, not_true_eq_false, if_false, ite_false,
      hnfmt, not_false_eq_true, if_true, ite_true]
    rw [hvote]
    dsimp only
    rw [hvd']
    dsimp only
    simp only [hct, not_true_eq_false, if_false, ite_false, Bool.true_eq_false]
    rw [hdup]
    simp

/-- Witness for C7: a concrete single-choice ballot (deadline 1000 ms,
reveal deadline 2000 ms) with one matching vote; the reveal is rejected at
999, rejected at 2000, and accepted at exactly 1000. -/
theorem c7_reveal_window_witness :
    (submitReveal
      { ballots := [{ id := "b1", question := "q", choices := ["A", "B"],
                      created := 0, deadline := 1000, revealDeadline := 2000,
                      status := .voting, voteType := none }],
        votes := [{ ballotId := "b1",
                    nullifier := "aaaaaaaaaaaaaaaaaaaaaaaaaaaaaaaaaaaaaaaaaaaaaaaaaaaaaaaaaaaaaaaa",
                    commitment := "As", proof := "p",
                    attestation := { timestamp := 1 } }],
        reveals := [] } (1000 - 1)
      { ballotId := "b1",
        nullifier := "aaaaaaaaaaaaaaaaaaaaaaaaaaaaaaaaaaaaaaaaaaaaaaaaaaaaaaaaaaaaaaaa",
        choice := "A", salt := "s", voteData := none }).1 = .error .ballotClosed ∧
    (submitReveal
      { ballots := [{ id := "b1", question := "q", choices := ["A", "B"],
                      created := 0, deadline := 1000, revealDeadline := 2000,
                      status := .voting, voteType := none }],
        votes := [{ ballotId := "b1",
                    nullifier := "aaaaaaaaaaaaaaaaaaaaaaaaaaaaaaaaaaaaaaaaaaaaaaaaaaaaaaaaaaaaaaaa",
                    commitment := "As", proof := "p",
                    attestation := { timestamp := 1 } }],
        reveals := [] } 2000
      { ballotId := "b1",
        nullifier := "aaaaaaaaaaaaaaaaaaaaaaaaaaaaaaaaaaaaaaaaaaaaaaaaaaaaaaaaaaaaaaaa",
        choice := "A", salt := "s", voteData := none }).1 =
      .error .ballotNotRevealing ∧
    ∃ st', submitReveal
      { ballots := [{ id := "b1", question := "q", choices := ["A", "B"],
                      created := 0, deadline := 1000, revealDeadline := 2000,
                      status := .voting, voteType := none }],
        votes := [{ ballotId := "b1",
                    nullifier := "aaaaaaaaaaaaaaaaaaaaaaaaaaaaaaaaaaaaaaaaaaaaaaaaaaaaaaaaaaaaaaaa",
                    commitment := "As", proof := "p",
                    attestation := { timestamp := 1 } }],
        reveals := [] } 1000
      { ballotId := "b1",
        nullifier := "aaaaaaaaaaaaaaaaaaaaaaaaaaaaaaaaaaaaaaaaaaaaaaaaaaaaaaaaaaaaaaaa",
        choice := "A", salt := "s", voteData := none } =
      (.ok (revealOfRequest
        { ballotId := "b1",
          nullifier := "aaaaaaaaaaaaaaaaaaaaaaaaaaaaaaaaaaaaaaaaaaaaaaaaaaaaaaaaaaaaaaaa",
          choice := "A", salt := "s", voteData := none }), st') := by
  have h := c7_reveal_window
    { ballots := [{ id := "b1", question := "q", choices := ["A", "B"],
                    created := 0, deadline := 1000, revealDeadline := 2000,
                    status := .voting, voteType := none }],
      votes := [{ ballotId := "b1",
                  nullifier := "aaaaaaaaaaaaaaaaaaaaaaaaaaaaaaaaaaaaaaaaaaaaaaaaaaaaaaaaaaaaaaaa",
                  commitment := "As", proof := "p",
                  attestation := { timestamp := 1 } }],
      reveals := [] }
    { ballotId := "b1",
      nullifier := "aaaaaaaaaaaaaaaaaaaaaaaaaaaaaaaaaaaaaaaaaaaaaaaaaaaaaaaaaaaaaaaa",
      choice := "A", salt := "s", voteData := none }
    { id := "b1", question := "q", choices := ["A", "B"], created := 0,
      deadline := 1000, revealDeadline := 2000, status := .voting,
      voteType := none }
    (by decide) (by decide) (by decide)
  refine ⟨h.1.1, (h.2.1 2000 (by decide)).1, ?_⟩
  obtain ⟨st', heq, _⟩ := h.2.2 (by decide)
    { ballotId := "b1",
      nullifier := "aaaaaaaaaaaaaaaaaaaaaaaaaaaaaaaaaaaaaaaaaaaaaaaaaaaaaaaaaaaaaaaa",
      commitment := "As", proof := "p", attestation := { timestamp := 1 } }
    (by decide) (by decide) rfl (by decide) rfl
  exact ⟨st', heq⟩

/-! ## Claim C9 -/

theorem find?_map_key_hit {α : Type} (k : String) (v : α) :
    ∀ m : List (String × α), (m.find? (fun p => p.1 == k)).isSome = true →
      (m.map (fun p => if p.1 == k then (k, v) else p)).find? (fun p => p.1 == k) =
        some (k, v) := by
  intro m
  induction m with
  | nil => simp
  | cons p ps ih =>
      intro hsome
      by_cases hp : (p.1 == k) = true
      · simp only [List.map_cons, if_pos hp, List.find?_cons]
        simp
      · simp only [List.map_cons, if_neg hp, List.find?_cons]
        rw [List.find?_cons] at hsome
        cases hk : (p.1 == k) with
        | true => exact absurd hk hp
        | false =>
            rw [hk] at hsome
            simp only [hk]
            exact ih (by simpa using hsome)

theorem mapGet_mapSet_self {α : Type} (m : List (String × α)) (k : String) (v : α) :
    mapGet (mapSet m k v) k = some v := by
  unfold mapGet mapSet
  by_cases h : (m.find? (fun p => p.1 == k)).isSome = true
  · rw [if_pos h, find?_map_key_hit k v m h]
    rfl
  · rw [if_neg h]
    have hnone : m.find? (fun p => p.1 == k) = none := by
      cases hf : m.find? (fun p => p.1 == k) with
      | none => rfl
      | some p => rw [hf] at h; simp at h
    rw [List.find?_append, hnone]
    simp

/-- Claim C9: when the gossip vote handler receives a vote whose
`(ballot_id, nullifier)` is already cached under a different commitment, it
penalizes the sending peer with the `double_vote` penalty (−10, no
per-reason counter), leaves the cached commitment and the vote store
unchanged, and does not rebroadcast. -/
theorem c9_gossip_double_vote (vp : String → Bool)
    (va : WitnessAttestation → Bool) (st : GossipState) (now : Int)
    (vote : Vote) (peerId : String) (b : Ballot) (entry : NullifierEntry)
    (hfind : storeGetBallot st.ballots vote.ballotId = some b)
    (hproof : vp vote.proof = true)
    (hatt : va vote.attestation = true)
    (hts : vote.attestation.timestamp * 1000 ≤ b.deadline)
    (hcache : mapGet st.nullifiers (vote.ballotId ++ ":" ++ vote.nullifier) =
      some entry)
    (hmismatch : entry.commitment ≠ vote.commitment) :
    (onReceiveVote vp va st now vote peerId).votes = st.votes ∧
    (onReceiveVote vp va st now vote peerId).broadcasts = st.broadcasts ∧
    (mapGet (onReceiveVote vp va st now vote peerId).nullifiers
        (vote.ballotId ++ ":" ++ vote.nullifier)).map (fun e => e.commitment) =
      some entry.commitment ∧
    getPeerScore (onReceiveVote vp va st now vote peerId).peerScores peerId =
      { getPeerScore st.peerScores peerId with
        score := (getPeerScore st.peerScores peerId).score - 10 } := by
  obtain ⟨bl, hmgb⟩ := managerGetBallot_found st.ballots vote.ballotId now b hfind
  have hstep : onReceiveVote vp va st now vote peerId =
      { st with
        ballots := bl,
        nullifiers := mapSet st.nullifiers (vote.ballotId ++ ":" ++ vote.nullifier)
          { entry with peerCount := entry.peerCount + 1 },
        peerScores := penalizePeer st.peerScores peerId "double_vote" 10 } := by
    unfold onReceiveVote
    rw [hmgb]
    simp only [hproof, hatt, not_true_eq_false, if_false, ite_false,
      Bool.true_eq_false]
    rw [if_neg (by omega : ¬ vote.attestation.timestamp * 1000 > b.deadline)]
    rw [hcache]
    dsimp only
    rw [if_pos hmismatch]
  rw [hstep]
  refine ⟨rfl, rfl, ?_, ?_⟩
  · rw [mapGet_mapSet_self]
    rfl
  · unfold penalizePeer getPeerScore
    rw [mapGet_mapSet_self]
    rfl

/-- Witness for C9 at a concrete cached entry with a conflicting
commitment: the vote store and broadcasts stay empty, the cached commitment
stays `"c1"`, and the fresh peer's score drops from 100 to 90. -/
theorem c9_gossip_double_vote_witness :
    (onReceiveVote (fun _ => true) (fun _ => true)
      (GossipState.mk
        [("b1:n1", NullifierEntry.mk "b1" "n1" "c1" 1 3)] []
        [Ballot.mk "b1" "q" ["A", "B"] 0 1000 2000 .voting none] [] [])
      500 (Vote.mk "b1" "n1" "c2" "p" (WitnessAttestation.mk 1))
      "peerX").votes = [] ∧
    (onReceiveVote (fun _ => true) (fun _ => true)
      (GossipState.mk
        [("b1:n1", NullifierEntry.mk "b1" "n1" "c1" 1 3)] []
        [Ballot.mk "b1" "q" ["A", "B"] 0 1000 2000 .voting none] [] [])
      500 (Vote.mk "b1" "n1" "c2" "p" (WitnessAttestation.mk 1))
      "peerX").broadcasts = [] ∧
    (mapGet (onReceiveVote (fun _ => true) (fun _ => true)
      (GossipState.mk
        [("b1:n1", NullifierEntry.mk "b1" "n1" "c1" 1 3)] []
        [Ballot.mk "b1" "q" ["A", "B"] 0 1000 2000 .voting none] [] [])
      500 (Vote.mk "b1" "n1" "c2" "p" (WitnessAttestation.mk 1))
      "peerX").nullifiers "b1:n1").map (fun e => e.commitment) = some "c1" ∧
    (getPeerScore (onReceiveVote (fun _ => true) (fun _ => true)
      (GossipState.mk
        [("b1:n1", NullifierEntry.mk "b1" "n1" "c1" 1 3)] []
        [Ballot.mk "b1" "q" ["A", "B"] 0 1000 2000 .voting none] [] [])
      500 (Vote.mk "b1" "n1" "c2" "p" (WitnessAttestation.mk 1))
      "peerX").peerScores "peerX").score = 90 := by
  have h := c9_gossip_double_vote (fun _ => true) (fun _ => true)
    (GossipState.mk
      [("b1:n1", NullifierEntry.mk "b1" "n1" "c1" 1 3)] []
      [Ballot.mk "b1" "q" ["A", "B"] 0 1000 2000 .voting none] [] [])
    500 (Vote.mk "b1" "n1" "c2" "p" (WitnessAttestation.mk 1)) "peerX"
    (Ballot.mk "b1" "q" ["A", "B"] 0 1000 2000 .voting none)
    (NullifierEntry.mk "b1" "n1" "c1" 1 3)
    (by decide) rfl rfl (by decide) (by decide) (by decide)
  refine ⟨h.1, h.2.1, h.2.2.1, ?_⟩
  rw [h.2.2.2]
  rfl

/-! ## Claim C4 -/

instance : IsTotal (String × Int) localeLeKey := by
  constructor
  intro p q
  unfold localeLeKey localeLe
  rcases lt_trichotomy (lowerCodes p.1) (lowerCodes q.1) with h | h | h
  · exact Or.inl (Or.inl h)
  · rcases le_total (charCodes q.1) (charCodes p.1) with hc | hc
    · exact Or.inl (Or.inr ⟨h, hc⟩)
    · exact Or.inr (Or.inr ⟨h.symm, hc⟩)
  · exact Or.inr (Or.inl h)

instance : IsTrans (String × Int) localeLeKey := by
  constructor
  intro p q r hpq hqr
  unfold localeLeKey localeLe at *
  rcases hpq with h1 | ⟨h1, h1c⟩
  · rcases hqr with h2 | ⟨h2, _⟩
    · exact Or.inl (h1.trans h2)
    · exact Or.inl (h2 ▸ h1)
  · rcases hqr with h2 | ⟨h2, h2c⟩
    · exact Or.inl (h1 ▸ h2)
    · exact Or.inr ⟨h1.trans h2, h2c.trans h1c⟩

theorem localeLe_antisymm_keys (a b : String) (hab : localeLe a b)
    (hba : localeLe b a) : a = b := by
  unfold localeLe at *
  rcases hab with h1 | ⟨h1, h1c⟩
  · rcases hba with h2 | ⟨h2, _⟩
    · exact absurd h2 (lt_asymm h1)
    · exact absurd (h2 ▸ h1) (lt_irrefl _)
  · rcases hba with h2 | ⟨h2, h2c⟩
    · exact absurd (h1 ▸ h2) (lt_irrefl _)
    · exact charCodes_injective a b (le_antisymm h2c h1c)

/-- Two sorted score-entry lists that are permutations of each other and
have pairwise-distinct keys coincide. -/
theorem sorted_perm_nodupkeys_eq :
    ∀ (l₁ l₂ : List (String × Int)), l₁.Perm l₂ →
      List.Sorted localeLeKey l₁ → List.Sorted localeLeKey l₂ →
      (l₁.map Prod.fst).Nodup → l₁ = l₂ := by
  intro l₁
  induction l₁ with
  | nil =>
      intro l₂ hp _ _ _
      exact hp.nil_eq
  | cons a t ih =>
      intro l₂ hp hs₁ hs₂ hnd
      cases l₂ with
      | nil =>
          exact absurd hp.eq_nil (by simp)
      | cons b u =>
          have ha_mem : a ∈ b :: u := hp.subset (List.mem_cons_self a t)
          have hb_mem : b ∈ a :: t := hp.symm.subset (List.mem_cons_self b u)
          have hnd' : (a.1 :: t.map Prod.fst).Nodup := by simpa using hnd
          have hab : a = b := by
            rcases List.mem_cons.mp ha_mem with h | ha_u
            · exact h
            rcases List.mem_cons.mp hb_mem with h | hb_t
            · exact h.symm
            have h1 : localeLeKey a b := (List.sorted_cons.mp hs₁).1 b hb_t
            have h2 : localeLeKey b a := (List.sorted_cons.mp hs₂).1 a ha_u
            have hkey : a.1 = b.1 := localeLe_antisymm_keys _ _ h1 h2
            exfalso
            have hmem : a.1 ∈ t.map Prod.fst := by
              rw [hkey]
              exact List.mem_map_of_mem _ hb_t
            exact (List.nodup_cons.mp hnd').1 hmem
          subst hab
          have htu : t.Perm u := hp.cons_inv
          rw [ih u htu (List.sorted_cons.mp hs₁).2 (List.sorted_cons.mp hs₂).2
            (List.nodup_cons.mp hnd').2]

/-- Claim C4 is false as stated: the source sorts score keys with
`localeCompare`, not ASCII byte order.  For the map `{a: 1, B: 2}` the
source serializes `"score:a:1,B:2"` (lowercase `a` first under the default
collation) while the spec's ASCII-byte order would give
`"score:B:2,a:1"` (`B` = 0x42 < `a` = 0x61). -/
theorem c4_counterexample :
    serializeVoteData (.score [("a", 1), ("B", 2)]) = "score:a:1,B:2" ∧
    serializeScoreSpecAscii [("a", 1), ("B", 2)] = "score:B:2,a:1" ∧
    serializeVoteData (.score [("a", 1), ("B", 2)]) ≠
      serializeScoreSpecAscii [("a", 1), ("B", 2)] := by
  exact ⟨by decide, by decide, by decide⟩

/-- Claim C4, amended: the Score serialization is `"score:"` followed by the
`key:value` entries joined by commas with keys sorted by the locale-aware
`localeCompare` order (case-insensitive primary comparison, lowercase first
on ties) rather than ascending ASCII byte order; it remains identical for
any two Score maps with the same key-value pairs regardless of insertion
order. -/
theorem c4_score_serialization (m m' : List (String × Int))
    (hperm : m.Perm m') (hnodup : (m.map Prod.fst).Nodup) :
    serializeVoteData (.score m) = serializeVoteData (.score m') ∧
    List.Sorted localeLeKey (sortScoreEntries m) := by
  have hsorted₁ : List.Sorted localeLeKey (m.insertionSort localeLeKey) :=
    List.sorted_insertionSort localeLeKey m
  have hsorted₂ : List.Sorted localeLeKey (m'.insertionSort localeLeKey) :=
    List.sorted_insertionSort localeLeKey m'
  have hp : (m.insertionSort localeLeKey).Perm (m'.insertionSort localeLeKey) :=
    (List.perm_insertionSort localeLeKey m).trans
      (hperm.trans (List.perm_insertionSort localeLeKey m').symm)
  have hnd : ((m.insertionSort localeLeKey).map Prod.fst).Nodup :=
    ((List.perm_insertionSort localeLeKey m).map Prod.fst).symm.nodup hnodup
  have heq : m.insertionSort localeLeKey = m'.insertionSort localeLeKey :=
    sorted_perm_nodupkeys_eq _ _ hp hsorted₁ hsorted₂ hnd
  constructor
  · simp only [serializeVoteData, sortScoreEntries, heq]
  · exact hsorted₁

/-- Witness for C4 at a two-entry score map and its reversed insertion
order. -/
theorem c4_score_serialization_witness :
    serializeVoteData (.score [("B", 2), ("a", 1)]) =
      serializeVoteData (.score [("a", 1), ("B", 2)]) ∧
    List.Sorted localeLeKey (sortScoreEntries [("B", 2), ("a", 1)]) :=
  c4_score_serialization [("B", 2), ("a", 1)] [("a", 1), ("B", 2)]
    (by decide) (by decide)

/-! ## Claim C1 -/

theorem jsEntriesOrder_perm (l : List String) : (jsEntriesOrder l).Perm l := by
  unfold jsEntriesOrder
  have hfc : l.filter (fun s => ¬ (jsArrayIndex? s).isSome) =
      l.filter (fun s => !(jsArrayIndex? s).isSome) := by
    apply List.filter_congr
    intro a _
    cases h : (jsArrayIndex? a).isSome <;> simp [h]
  rw [hfc]
  exact ((List.perm_insertionSort arrayIndexLe _).append_right _).trans
    (List.filter_append_perm _ l)

theorem natListMin_mem : ∀ (xs : List Nat) (x : Nat), xs.foldl min x ∈ x :: xs := by
  intro xs
  induction xs with
  | nil => intro x; simp
  | cons y ys ih =>
      intro x
      have := ih (min x y)
      rcases List.mem_cons.mp this with h | h
      · rcases Nat.le_total x y with hxy | hxy
        · rw [List.foldl_cons]
          rw [h, min_eq_left hxy]
          exact List.mem_cons_self _ _
        · rw [List.foldl_cons, h, min_eq_right hxy]
          exact List.mem_cons_of_mem _ (List.mem_cons_self _ _)
      · rw [List.foldl_cons]
        exact List.mem_cons_of_mem _ (List.mem_cons_of_mem _ h)

theorem natListMin_mem_of_ne_nil (l : List Nat) (hne : l ≠ []) :
    natListMin l ∈ l := by
  cases l with
  | nil => exact absurd rfl hne
  | cons v vs => exact natListMin_mem vs v

theorem roundEliminated_min_isSome (votes : List (String × Nat)) (hne : votes ≠ []) :
    ∃ e, roundEliminated votes
      (natListMin ((votes.map (fun kv => kv.2)).filter (fun v => decide (0 ≤ v))))
      = some e := by
  have hfilter : (votes.map (fun kv => kv.2)).filter (fun v => decide (0 ≤ v)) =
      votes.map (fun kv => kv.2) := by
    apply List.filter_eq_self.mpr
    intro a _
    simp
  rw [hfilter]
  have hmapne : votes.map (fun kv => kv.2) ≠ [] := by
    intro hcon
    exact hne (List.map_eq_nil_iff.mp hcon)
  obtain ⟨kv, hkv_mem, hkv_eq⟩ :=
    List.mem_map.mp (natListMin_mem_of_ne_nil _ hmapne)
  have hfind : ((votes.find? (fun p => p.2 ==
      natListMin (votes.map (fun kv => kv.2)))).isSome) = true :=
    List.find?_isSome.mpr ⟨kv, hkv_mem, by simp [hkv_eq]⟩
  unfold roundEliminated
  cases hf : votes.find? (fun p => p.2 ==
      natListMin (votes.map (fun kv => kv.2))) with
  | none => rw [hf] at hfind; simp at hfind
  | some kv' => exact ⟨kv'.1, rfl⟩

theorem countRoundVotes_ne_nil (remaining : List String)
    (ballots : List (List String)) (h : 2 ≤ remaining.length) :
    countRoundVotes remaining ballots ≠ [] := by
  unfold countRoundVotes
  intro hcon
  have hlen := congrArg List.length hcon
  rw [List.length_map, (jsEntriesOrder_perm remaining).length_eq,
    List.length_nil] at hlen
  omega

/-- Claim C1, part (a) as amended: a ballot whose ranking list has no
remaining choice contributes no vote — prepending such a ballot leaves the
round's vote record unchanged. -/
theorem countRoundVotes_exhausted (remaining : List String)
    (ballots : List (List String)) (b : List String)
    (hb : firstRemainingChoice remaining b = none) :
    countRoundVotes remaining (b :: ballots) = countRoundVotes remaining ballots := by
  unfold countRoundVotes
  apply List.map_congr_left
  intro c _
  rw [List.countP_cons]
  simp [hb]

theorem irvElim_isSome (remaining : List String) (ballots : List (List String))
    (h : ¬ remaining.length ≤ 1) : ∃ e, irvElim remaining ballots = some e := by
  unfold irvElim roundMinVotes
  exact roundEliminated_min_isSome (countRoundVotes remaining ballots)
    (countRoundVotes_ne_nil remaining ballots (by omega))

/-- Branch lemma: the loop exits on a short remaining list. -/
theorem irvLoop_short (capLen : Nat) (remaining : List String)
    (ballots : List (List String)) (roundNum : Nat)
    (h : remaining.length ≤ 1) :
    irvLoop capLen remaining ballots roundNum = [] := by
  rw [irvLoop, if_pos h]

/-- Branch lemma: a majority round is recorded without elimination and ends
the loop. -/
theorem irvLoop_majority (capLen : Nat) (remaining : List String)
    (ballots : List (List String)) (roundNum : Nat)
    (h1 : ¬ remaining.length ≤ 1)
    (h2 : natListMax ((countRoundVotes remaining ballots).map (fun kv => kv.2)) ≥
      ballots.length / 2 + 1) :
    irvLoop capLen remaining ballots roundNum =
      [{ round := roundNum, votes := countRoundVotes remaining ballots,
         eliminated := none }] := by
  rw [irvLoop, if_neg h1]
  dsimp only
  rw [if_pos h2]

/-- Branch lemma: a non-majority round records the eliminated choice and
continues (or stops at the safety cap). -/
theorem irvLoop_elim (capLen : Nat) (remaining : List String)
    (ballots : List (List String)) (roundNum : Nat)
    (h1 : ¬ remaining.length ≤ 1)
    (h2 : ¬ natListMax ((countRoundVotes remaining ballots).map (fun kv => kv.2)) ≥
      ballots.length / 2 + 1) :
    irvLoop capLen remaining ballots roundNum =
      { round := roundNum, votes := countRoundVotes remaining ballots,
        eliminated := irvElim remaining ballots } ::
      (if roundNum + 1 > capLen + 1 then []
       else irvLoop capLen (irvNextRemaining remaining ballots)
         (irvNextBallots remaining ballots) (roundNum + 1)) := by
  rw [irvLoop, if_neg h1]
  dsimp only
  rw [if_neg h2]
  by_cases hcap : roundNum + 1 > capLen + 1
  · rw [dif_pos hcap, if_pos hcap]
  · rw [dif_neg hcap, if_neg hcap]

theorem irvNextBallots_length (remaining : List String)
    (ballots : List (List String)) :
    (irvNextBallots remaining ballots).length = ballots.length := by
  unfold irvNextBallots
  exact List.length_map _ _

theorem irvLoop_no_elim_iff (capLen : Nat) :
    ∀ (fuel : Nat) (remaining : List String) (ballots : List (List String))
      (roundNum : Nat), capLen + 2 - roundNum ≤ fuel →
      ∀ r ∈ irvLoop capLen remaining ballots roundNum,
        (r.eliminated = none ↔
          natListMax (r.votes.map (fun kv => kv.2)) ≥ ballots.length / 2 + 1) := by
  intro fuel
  induction fuel with
  | zero =>
      intro remaining ballots roundNum hle r hr
      by_cases h1 : remaining.length ≤ 1
      · rw [irvLoop_short capLen remaining ballots roundNum h1] at hr
        exact absurd hr (List.not_mem_nil r)
      by_cases h2 : natListMax ((countRoundVotes remaining ballots).map
          (fun kv => kv.2)) ≥ ballots.length / 2 + 1
      · rw [irvLoop_majority capLen remaining ballots roundNum h1 h2] at hr
        rcases List.mem_singleton.mp hr with rfl
        simpa using h2
      · rw [irvLoop_elim capLen remaining ballots roundNum h1 h2,
          if_pos (by omega : roundNum + 1 > capLen + 1)] at hr
        rcases List.mem_singleton.mp hr with rfl
        obtain ⟨e, he⟩ := irvElim_isSome remaining ballots h1
        simp only [he]
        constructor
        · intro hco; cases hco
        · intro hco; exact absurd hco h2
  | succ n ih =>
      intro remaining ballots roundNum hle r hr
      by_cases h1 : remaining.length ≤ 1
      · rw [irvLoop_short capLen remaining ballots roundNum h1] at hr
        exact absurd hr (List.not_mem_nil r)
      by_cases h2 : natListMax ((countRoundVotes remaining ballots).map
          (fun kv => kv.2)) ≥ ballots.length / 2 + 1
      · rw [irvLoop_majority capLen remaining ballots roundNum h1 h2] at hr
        rcases List.mem_singleton.mp hr with rfl
        simpa using h2
      · rw [irvLoop_elim capLen remaining ballots roundNum h1 h2] at hr
        by_cases hcap : roundNum + 1 > capLen + 1
        · rw [if_pos hcap] at hr
          rcases List.mem_singleton.mp hr with rfl
          obtain ⟨e, he⟩ := irvElim_isSome remaining ballots h1
          simp only [he]
          constructor
          · intro hco; cases hco
          · intro hco; exact absurd hco h2
        · rw [if_neg hcap] at hr
          rcases List.mem_cons.mp hr with rfl | hr'
          · obtain ⟨e, he⟩ := irvElim_isSome remaining ballots h1
            simp only [he]
            constructor
            · intro hco; cases hco
            · intro hco; exact absurd hco h2
          · have hrec := ih (irvNextRemaining remaining ballots)
              (irvNextBallots remaining ballots) (roundNum + 1)
              (by omega) r hr'
            rwa [irvNextBallots_length] at hrec

/-- Claim C1, amended: in every recorded instant-runoff round, a ballot with
no remaining choice contributes no vote, and the round ends without an
elimination exactly when `maxVotes ≥ ⌊totalBallots/2⌋ + 1` where
`totalBallots` is the NUMBER of valid ballots (constant across rounds,
exhausted ballots included) — not the sum of the votes cast in the round. -/
theorem c1_irv_round_accounting :
    (∀ (remaining : List String) (ballots : List (List String)) (b : List String),
      firstRemainingChoice remaining b = none →
        countRoundVotes remaining (b :: ballots) = countRoundVotes remaining ballots) ∧
    (∀ (capLen : Nat) (remaining : List String) (ballots : List (List String))
        (roundNum : Nat), ∀ r ∈ irvLoop capLen remaining ballots roundNum,
      (r.eliminated = none ↔
        natListMax (r.votes.map (fun kv => kv.2)) ≥ ballots.length / 2 + 1)) := by
  refine ⟨countRoundVotes_exhausted, ?_⟩
  intro capLen remaining ballots roundNum
  exact irvLoop_no_elim_iff capLen (capLen + 2 - roundNum) remaining ballots roundNum
    (le_refl _)

/-- Concrete evaluation of the IRV loop on the election with choices
`["A","B","C"]` and ballots `[C]`, `[A]`, `[A]`, `[B]`: round 1 eliminates
`B`; round 2 (votes `A: 2, C: 1`) eliminates `C`. -/
theorem irv_rounds_ABC :
    irvLoop 3 ["A", "B", "C"] [["C"], ["A"], ["A"], ["B"]] 1 =
      [{ round := 1, votes := [("A", 2), ("B", 1), ("C", 1)],
         eliminated := some "B" },
       { round := 2, votes := [("A", 2), ("C", 1)], eliminated := some "C" }] := by
  rw [irvLoop_elim 3 ["A", "B", "C"] [["C"], ["A"], ["A"], ["B"]] 1
    (by decide) (by decide)]
  have e1 : countRoundVotes ["A", "B", "C"] [["C"], ["A"], ["A"], ["B"]] =
      [("A", 2), ("B", 1), ("C", 1)] := by decide
  have e2 : irvElim ["A", "B", "C"] [["C"], ["A"], ["A"], ["B"]] = some "B" := by
    decide
  have e3 : irvNextRemaining ["A", "B", "C"] [["C"], ["A"], ["A"], ["B"]] =
      ["A", "C"] := by decide
  have e4 : irvNextBallots ["A", "B", "C"] [["C"], ["A"], ["A"], ["B"]] =
      [["C"], ["A"], ["A"], []] := by decide
  rw [e1, e2, e3, e4, if_neg (by decide)]
  rw [irvLoop_elim 3 ["A", "C"] [["C"], ["A"], ["A"], []] 2 (by decide) (by decide)]
  have f1 : countRoundVotes ["A", "C"] [["C"], ["A"], ["A"], []] =
      [("A", 2), ("C", 1)] := by decide
  have f2 : irvElim ["A", "C"] [["C"], ["A"], ["A"], []] = some "C" := by decide
  have f3 : irvNextRemaining ["A", "C"] [["C"], ["A"], ["A"], []] = ["A"] := by
    decide
  have f4 : irvNextBallots ["A", "C"] [["C"], ["A"], ["A"], []] =
      [[], ["A"], ["A"], []] := by decide
  rw [f1, f2, f3, f4, if_neg (by decide)]
  rw [irvLoop_short 3 ["A"] [[], ["A"], ["A"], []] 3 (by decide)]

/-- Witness for C1's amended statement: the exhausted ballot `["C"]` after
`C` is eliminated contributes no vote, and round 2 of the concrete election
(`A: 2, C: 1`, max 2, 4 ballots) records an elimination because
`2 < ⌊4/2⌋ + 1`, although `2 ≥ ⌊3/2⌋ + 1` for the 3 votes actually cast. -/
theorem c1_irv_round_accounting_witness :
    countRoundVotes ["A", "C"] ([] : List (List String)) =
      countRoundVotes ["A", "C"] [[]] ∧
    ((RankedChoiceRound.mk 2 [("A", 2), ("C", 1)] (some "C")).eliminated = none ↔
      natListMax ((RankedChoiceRound.mk 2 [("A", 2), ("C", 1)]
        (some "C")).votes.map (fun kv => kv.2)) ≥
        ([["C"], ["A"], ["A"], ["B"]] : List (List String)).length / 2 + 1) := by
  constructor
  · exact (c1_irv_round_accounting.1 ["A", "C"] [] [] (by decide)).symm
  · exact c1_irv_round_accounting.2 3 ["A", "B", "C"] [["C"], ["A"], ["A"], ["B"]] 1
      (RankedChoiceRound.mk 2 [("A", 2), ("C", 1)] (some "C"))
      (by rw [irv_rounds_ABC]; decide)

/-- Claim C1 is false as stated: in the concrete ranked election with
choices `["A","B","C"]` and ballots `[C]`, `[A]`, `[A]`, `[B]`, round 2 has
votes `A: 2, C: 1` (sum 3 — the exhausted `[C]`-ballot casts no vote), so
the claimed majority threshold is `⌊3/2⌋ + 1 = 2 ≤ maxVotes = 2` and the
round should end with no elimination; the code instead uses the ballot
count 4 (threshold 3) and eliminates `C`. -/
theorem c1_counterexample :
    (computeRankedChoiceTally ["A", "B", "C"] [["C"], ["A"], ["A"], ["B"]]).2[1]? =
      some (RankedChoiceRound.mk 2 [("A", 2), ("C", 1)] (some "C")) ∧
    natListMax ([("A", 2), ("C", 1)].map (fun kv => kv.2)) ≥
      (([("A", 2), ("C", 1)].map (fun kv => kv.2)).sum) / 2 + 1 ∧
    (RankedChoiceRound.mk 2 [("A", 2), ("C", 1)] (some "C")).eliminated ≠ none := by
  refine ⟨?_, by decide, by decide⟩
  show (irvLoop 3 ["A", "B", "C"] ([["C"], ["A"], ["A"], ["B"]].map id) 1)[1]? = _
  rw [show ([["C"], ["A"], ["A"], ["B"]] : List (List String)).map id =
    [["C"], ["A"], ["A"], ["B"]] from by decide]
  rw [irv_rounds_ABC]
  decide

/-! ## Claim C2 -/

theorem jsEntriesOrder_no_index (l : List String)
    (h : ∀ c ∈ l, jsArrayIndex? c = none) : jsEntriesOrder l = l := by
  unfold jsEntriesOrder
  have h1 : l.filter (fun s => (jsArrayIndex? s).isSome) = [] := by
    apply List.filter_eq_nil_iff.mpr
    intro a ha
    simp [h a ha]
  have h2 : l.filter (fun s => ¬ (jsArrayIndex? s).isSome) = l := by
    apply List.filter_eq_self.mpr
    intro a ha
    simp [h a ha]
  rw [h1, h2]
  rfl

theorem countRoundVotes_no_index (remaining : List String)
    (ballots : List (List String))
    (h : ∀ c ∈ remaining, jsArrayIndex? c = none) :
    countRoundVotes remaining ballots =
      remaining.map (fun c =>
        (c, ballots.countP (fun b => firstRemainingChoice remaining b == some c))) := by
  unfold countRoundVotes
  rw [jsEntriesOrder_no_index remaining h]

theorem countRoundVotes_perm (remaining : List String)
    (ballots ballots' : List (List String)) (h : ballots.Perm ballots') :
    countRoundVotes remaining ballots = countRoundVotes remaining ballots' := by
  unfold countRoundVotes
  apply List.map_congr_left
  intro c _
  rw [h.countP_eq]

theorem irvElim_perm (remaining : List String)
    (ballots ballots' : List (List String)) (h : ballots.Perm ballots') :
    irvElim remaining ballots = irvElim remaining ballots' := by
  unfold irvElim
  rw [countRoundVotes_perm remaining ballots ballots' h]

theorem irvLoop_perm_invariant (capLen : Nat) :
    ∀ (fuel : Nat) (remaining : List String)
      (ballots ballots' : List (List String)) (roundNum : Nat),
      capLen + 2 - roundNum ≤ fuel → ballots.Perm ballots' →
      irvLoop capLen remaining ballots roundNum =
        irvLoop capLen remaining ballots' roundNum := by
  intro fuel
  induction fuel with
  | zero =>
      intro remaining ballots ballots' roundNum hle hperm
      have hv := countRoundVotes_perm remaining ballots ballots' hperm
      have hl := hperm.length_eq
      by_cases h1 : remaining.length ≤ 1
      · rw [irvLoop_short capLen remaining ballots roundNum h1,
          irvLoop_short capLen remaining ballots' roundNum h1]
      by_cases h2 : natListMax ((countRoundVotes remaining ballots).map
          (fun kv => kv.2)) ≥ ballots.length / 2 + 1
      · rw [irvLoop_majority capLen remaining ballots roundNum h1 h2,
          irvLoop_majority capLen remaining ballots' roundNum h1 (by
            rw [← hv, ← hl]; exact h2), hv]
      · rw [irvLoop_elim capLen remaining ballots roundNum h1 h2,
          irvLoop_elim capLen remaining ballots' roundNum h1 (by
            rw [← hv, ← hl]; exact h2)]
        rw [hv, irvElim_perm remaining ballots ballots' hperm,
          if_pos (by omega : roundNum + 1 > capLen + 1),
          if_pos (by omega : roundNum + 1 > capLen + 1)]
  | succ n ih =>
      intro remaining ballots ballots' roundNum hle hperm
      have hv := countRoundVotes_perm remaining ballots ballots' hperm
      have hl := hperm.length_eq
      by_cases h1 : remaining.length ≤ 1
      · rw [irvLoop_short capLen remaining ballots roundNum h1,
          irvLoop_short capLen remaining ballots' roundNum h1]
      by_cases h2 : natListMax ((countRoundVotes remaining ballots).map
          (fun kv => kv.2)) ≥ ballots.length / 2 + 1
      · rw [irvLoop_majority capLen remaining ballots roundNum h1 h2,
          irvLoop_majority capLen remaining ballots' roundNum h1 (by
            rw [← hv, ← hl]; exact h2), hv]
      · rw [irvLoop_elim capLen remaining ballots roundNum h1 h2,
          irvLoop_elim capLen remaining ballots' roundNum h1 (by
            rw [← hv, ← hl]; exact h2)]
        have helim := irvElim_perm remaining ballots ballots' hperm
        have hnextrem : irvNextRemaining remaining ballots =
            irvNextRemaining remaining ballots' := by
          unfold irvNextRemaining
          rw [helim]
        have hnextperm : (irvNextBallots remaining ballots).Perm
            (irvNextBallots remaining ballots') := by
          unfold irvNextBallots
          rw [helim]
          exact hperm.map _
        by_cases hcap : roundNum + 1 > capLen + 1
        · rw [hv, helim, if_pos hcap, if_pos hcap]
        · rw [hv, helim, if_neg hcap, if_neg hcap]
          congr 1
          rw [hnextrem]
          exact ih (irvNextRemaining remaining ballots')
            (irvNextBallots remaining ballots) (irvNextBallots remaining ballots')
            (roundNum + 1) (by omega) hnextperm

/-- Concrete IRV run with choices `["B","A"]` and one ballot for each: a
1–1 tie at the minimum is broken by eliminating `B`, the first choice in
the ballot's choices-list (votes-record) order. -/
theorem irv_rounds_BA :
    irvLoop 2 ["B", "A"] [["B"], ["A"]] 1 =
      [{ round := 1, votes := [("B", 1), ("A", 1)], eliminated := some "B" }] := by
  rw [irvLoop_elim 2 ["B", "A"] [["B"], ["A"]] 1 (by decide) (by decide)]
  rw [show countRoundVotes ["B", "A"] [["B"], ["A"]] = [("B", 1), ("A", 1)]
      from by decide,
    show irvElim ["B", "A"] [["B"], ["A"]] = some "B" from by decide,
    show irvNextRemaining ["B", "A"] [["B"], ["A"]] = ["A"] from by decide,
    show irvNextBallots ["B", "A"] [["B"], ["A"]] = [[], ["A"]] from by decide,
    if_neg (by decide)]
  rw [irvLoop_short 2 ["A"] [[], ["A"]] 2 (by decide)]

/-- The same two ballots under the reversed choices list `["A","B"]`: now
`A` is eliminated. -/
theorem irv_rounds_AB :
    irvLoop 2 ["A", "B"] [["B"], ["A"]] 1 =
      [{ round := 1, votes := [("A", 1), ("B", 1)], eliminated := some "A" }] := by
  rw [irvLoop_elim 2 ["A", "B"] [["B"], ["A"]] 1 (by decide) (by decide)]
  rw [show countRoundVotes ["A", "B"] [["B"], ["A"]] = [("A", 1), ("B", 1)]
      from by decide,
    show irvElim ["A", "B"] [["B"], ["A"]] = some "A" from by decide,
    show irvNextRemaining ["A", "B"] [["B"], ["A"]] = ["B"] from by decide,
    show irvNextBallots ["A", "B"] [["B"], ["A"]] = [["B"], []] from by decide,
    if_neg (by decide)]
  rw [irvLoop_short 2 ["B"] [["B"], []] 2 (by decide)]

/-- Claim C2 is false as stated: with choices `["B","A"]` and one ballot
for each choice, both remaining choices are tied at the minimum (1 vote)
but the code eliminates `B` — the first entry of the votes record, which
follows the ballot's choices-list order — although `A` is first in ASCII
order.  Consequently the recorded rounds are not independent of the order
in which the ballot's choices are listed: the same rankings under choices
`["A","B"]` eliminate `A` instead. -/
theorem c2_counterexample :
    (computeRankedChoiceTally ["B", "A"] [["B"], ["A"]]).2 =
      [{ round := 1, votes := [("B", 1), ("A", 1)], eliminated := some "B" }] ∧
    roundMinVotes [("B", 1), ("A", 1)] = 1 ∧
    ("A", 1) ∈ [("B", 1), ("A", 1)] ∧ asciiLt "A" "B" ∧
    (computeRankedChoiceTally ["A", "B"] [["B"], ["A"]]).2 =
      [{ round := 1, votes := [("A", 1), ("B", 1)], eliminated := some "A" }] := by
  refine ⟨?_, by decide, by decide, by decide, ?_⟩
  · show irvLoop 2 ["B", "A"] ([["B"], ["A"]].map id) 1 = _
    rw [show ([["B"], ["A"]] : List (List String)).map id = [["B"], ["A"]]
      from by decide]
    exact irv_rounds_BA
  · show irvLoop 2 ["A", "B"] ([["B"], ["A"]].map id) 1 = _
    rw [show ([["B"], ["A"]] : List (List String)).map id = [["B"], ["A"]]
      from by decide]
    exact irv_rounds_AB

/-- Claim C2, amended: when no choice name is a JS array-index string, the
per-round votes record lists the remaining choices in the ballot's
choices-list order, and among the choices tied at the minimum the one
eliminated is the FIRST IN THAT ORDER (not ASCII order).  Determinism holds
in the ballots: two runs over the same choices list and any permutation of
the same multiset of rankings produce identical `ranked_choice_rounds`. -/
theorem c2_irv_tiebreak :
    (∀ (remaining : List String) (ballots : List (List String)),
      (∀ c ∈ remaining, jsArrayIndex? c = none) →
      irvElim remaining ballots =
        remaining.find? (fun c =>
          ballots.countP (fun b => firstRemainingChoice remaining b == some c) ==
            roundMinVotes (countRoundVotes remaining ballots))) ∧
    (∀ (capLen : Nat) (remaining : List String)
        (ballots ballots' : List (List String)) (roundNum : Nat),
      ballots.Perm ballots' →
      irvLoop capLen remaining ballots roundNum =
        irvLoop capLen remaining ballots' roundNum) := by
  constructor
  · intro remaining ballots h
    unfold irvElim roundEliminated
    set m := roundMinVotes (countRoundVotes remaining ballots) with hm
    rw [countRoundVotes_no_index remaining ballots h, List.find?_map,
      Option.map_map]
    simp only [Function.comp_def]
    simp
  · intro capLen remaining ballots ballots' roundNum hperm
    exact irvLoop_perm_invariant capLen (capLen + 2 - roundNum) remaining
      ballots ballots' roundNum (le_refl _) hperm

/-- Witness for C2's amended statement at the concrete tied election. -/
theorem c2_irv_tiebreak_witness :
    irvElim ["B", "A"] [["B"], ["A"]] =
      (["B", "A"].find? (fun c =>
        [["B"], ["A"]].countP (fun b => firstRemainingChoice ["B", "A"] b == some c) ==
          roundMinVotes (countRoundVotes ["B", "A"] [["B"], ["A"]]))) ∧
    irvLoop 2 ["B", "A"] [["B"], ["A"]] 1 = irvLoop 2 ["B", "A"] [["A"], ["B"]] 1 :=
  ⟨c2_irv_tiebreak.1 ["B", "A"] [["B"], ["A"]] (by decide),
   c2_irv_tiebreak.2 2 ["B", "A"] [["B"], ["A"]] [["A"], ["B"]] 1 (by decide)⟩

end Prestige
